import Mathlib

/-!
Shallow embedding of the shs_async repository (src/src/lib.rs): the Secret
Handshake (SHS) driver for the client and server roles over an abstract
reliable duplex byte stream.

The drivers `attempt_client_side`, `attempt_server_side`, `client` and
`server` are translated from src/src/lib.rs.  The stream is modelled by an
explicit `StreamState` (remaining input bytes, output bytes written so far,
closed flag, and a trace of the I/O and cryptographic steps performed);
the async `read_exact` / `write_all` / `flush` / `close` operations become
explicit state-passing functions.

The cryptographic core (the shs_core crate: message codec, shared-secret
derivation, session-key derivation, nonce generators, error type) is not part
of this repository's sources, so it is modelled from the spec (sections 4.1,
4.3, 4.5 and 7), with the primitive operations kept abstract in a `Crypto`
structure, exactly as the spec treats them (black-box named contracts).
-/

/-- A byte string; bytes are modelled as natural numbers. -/
abbrev Bytes := List Nat

/-- Modelled from the spec: the error taxonomy of spec section 7 (the
shs_core `HandshakeError` type is not under src/). -/
inductive HandshakeError where
  | TransportError
  | BadLength
  | HelloAuthFailure
  | ClientAuthFailure
  | ServerAcceptFailure
  | KeyConversionFailure
deriving DecidableEq

/-- Modelled from the spec: the primitives facade of spec section 4.1
(the shs_core crate and its ssb_crypto primitives are not under src/).
Each field is one black-box primitive: `auth` is the keyed MAC
(HMAC-SHA-512/256 truncated to 32 bytes), `dh` is Curve25519 scalar
multiplication (failing on an invalid result), `pk_to_curve` / `sk_to_curve`
are the Ed25519 to Curve25519 conversions, `seal` / `sbox_open` are the
authenticated secretbox under the fixed zero nonce. -/
structure Crypto where
  auth : Bytes → Bytes → Bytes
  sha256 : Bytes → Bytes
  dh : Bytes → Bytes → Option Bytes
  pk_to_curve : Bytes → Option Bytes
  sk_to_curve : Bytes → Option Bytes
  sign : Bytes → Bytes → Bytes
  verify : Bytes → Bytes → Bytes → Bool
  sbox_seal : Bytes → Bytes → Bytes
  sbox_open : Bytes → Bytes → Option Bytes

/-- One observable step of a handshake driver: stream I/O, the MAC /
secretbox verifications, the shared-secret derivations, and the final
session-output derivation. -/
inductive Event where
  | genEph
  | writeBytes (n : Nat)
  | flush
  | readBytes (n : Nat)
  | verifyHello
  | deriveA
  | deriveB
  | deriveC
  | openAuth
  | openAccept
  | deriveOutcome
  | close
deriving DecidableEq

/-- The state of one side's view of the duplex stream: `inp` is the sequence
of bytes the peer delivers before end-of-stream, `out` the bytes written so
far, `closed` whether `close` has been called, `closeErr` whether a call to
`close` would itself fail, and `trace` the steps performed so far. -/
structure StreamState where
  inp : Bytes
  out : Bytes
  closed : Bool
  closeErr : Bool
  trace : List Event
deriving DecidableEq

/-- Initial stream state: `inp` waiting to be read, nothing written,
not closed, empty trace. -/
def initState (inp : Bytes) (cerr : Bool) : StreamState :=
  ⟨inp, [], false, cerr, []⟩

/-- Record one step in the trace. -/
def emitEv (e : Event) (s : StreamState) : StreamState :=
  {s with trace := s.trace ++ [e]}

/-- The stream's write_all: appends the bytes to the output side. -/
def write_all (b : Bytes) (s : StreamState) : StreamState :=
  {s with out := s.out ++ b, trace := s.trace ++ [Event.writeBytes b.length]}

/-- The stream's flush (a pure suspension point in the model). -/
def flushS (s : StreamState) : StreamState :=
  {s with trace := s.trace ++ [Event.flush]}

/-- The stream's read_exact: returns exactly `n` bytes, or fails when the
peer delivers fewer bytes than requested before end-of-stream. -/
def read_exact (n : Nat) (s : StreamState) : Option Bytes × StreamState :=
  if n ≤ s.inp.length then
    (some (s.inp.take n),
     {s with inp := s.inp.drop n, trace := s.trace ++ [Event.readBytes n]})
  else
    (none, {s with trace := s.trace ++ [Event.readBytes n]})

/-- The stream's close; it may itself fail (when `closeErr` is set), but it
always marks the stream closed. -/
def closeStream (s : StreamState) : Except HandshakeError Unit × StreamState :=
  ((if s.closeErr then Except.error HandshakeError.TransportError else Except.ok ()),
   {s with closed := true, trace := s.trace ++ [Event.close]})

/-- Modelled from the spec: K1 = sha256(NetworkId ++ SharedA ++ SharedB),
the ClientAuth secretbox key of spec section 4.3. -/
def K1 (C : Crypto) (net A B : Bytes) : Bytes :=
  C.sha256 (net ++ A ++ B)

/-- Modelled from the spec: K2 = sha256(NetworkId ++ SharedA ++ SharedB ++
SharedC), the ServerAccept secretbox key of spec section 4.3. -/
def K2 (C : Crypto) (net A B Cs : Bytes) : Bytes :=
  C.sha256 (net ++ A ++ B ++ Cs)

namespace ClientHello

/-- Modelled from the spec: ClientHello(64) = auth(NetworkId, client_eph_pk)
++ client_eph_pk (spec section 4.3). -/
def new (C : Crypto) (eph_pk net : Bytes) : Bytes :=
  C.auth net eph_pk ++ eph_pk

/-- Modelled from the spec: the length-checking parse of a ClientHello. -/
def from_slice (buf : Bytes) : Except HandshakeError Bytes :=
  if buf.length = 64 then Except.ok buf else Except.error HandshakeError.BadLength

/-- Modelled from the spec: recompute the MAC over the embedded ephemeral
key and return the key on success (spec section 4.3 codec contracts). -/
def verify (C : Crypto) (buf net : Bytes) : Except HandshakeError Bytes :=
  let mac := buf.take 32
  let pk := buf.drop 32
  if C.auth net pk = mac then Except.ok pk
  else Except.error HandshakeError.HelloAuthFailure

end ClientHello

namespace ServerHello

/-- Modelled from the spec: ServerHello(64) = auth(NetworkId, server_eph_pk)
++ server_eph_pk (spec section 4.3). -/
def new (C : Crypto) (eph_pk net : Bytes) : Bytes :=
  C.auth net eph_pk ++ eph_pk

/-- Modelled from the spec: the length-checking parse of a ServerHello. -/
def from_slice (buf : Bytes) : Except HandshakeError Bytes :=
  if buf.length = 64 then Except.ok buf else Except.error HandshakeError.BadLength

/-- Modelled from the spec: recompute the MAC over the embedded ephemeral
key and return the key on success. -/
def verify (C : Crypto) (buf net : Bytes) : Except HandshakeError Bytes :=
  let mac := buf.take 32
  let pk := buf.drop 32
  if C.auth net pk = mac then Except.ok pk
  else Except.error HandshakeError.HelloAuthFailure

end ServerHello

namespace ClientAuth

/-- Modelled from the spec: ClientAuth(112) = seal(K1, zero_nonce,
client_sig ++ client_longterm_pk) with client_sig = sign(client_sk,
NetworkId ++ server_pk ++ sha256(SharedA)) (spec section 4.3). -/
def new (C : Crypto) (sk pk server_pk net A B : Bytes) : Bytes :=
  let sig := C.sign sk (net ++ server_pk ++ C.sha256 A)
  C.sbox_seal (K1 C net A B) (sig ++ pk)

/-- Modelled from the spec: the length-checking parse of a ClientAuth. -/
def from_buffer (buf : Bytes) : Except HandshakeError Bytes :=
  if buf.length = 112 then Except.ok buf else Except.error HandshakeError.BadLength

/-- Modelled from the spec: open the secretbox with K1 and verify the
embedded client signature; returns (client_sig, client_longterm_pk).
Any failure is the single ClientAuthFailure error. -/
def open_and_verify (C : Crypto) (buf server_pk net A B : Bytes) :
    Except HandshakeError (Bytes × Bytes) :=
  match C.sbox_open (K1 C net A B) buf with
  | none => Except.error HandshakeError.ClientAuthFailure
  | some payload =>
    let sig := payload.take 64
    let client_pk := payload.drop 64
    if C.verify client_pk sig (net ++ server_pk ++ C.sha256 A)
    then Except.ok (sig, client_pk)
    else Except.error HandshakeError.ClientAuthFailure

end ClientAuth

namespace ServerAccept

/-- Modelled from the spec: ServerAccept(80) = seal(K2, zero_nonce,
server_sig) with server_sig = sign(server_sk, NetworkId ++ client_sig ++
client_longterm_pk ++ sha256(SharedA)) (spec section 4.3). -/
def new (C : Crypto) (sk client_pk net client_sig A B Cs : Bytes) : Bytes :=
  let sig := C.sign sk (net ++ client_sig ++ client_pk ++ C.sha256 A)
  C.sbox_seal (K2 C net A B Cs) sig

/-- Modelled from the spec: the length-checking parse of a ServerAccept. -/
def from_buffer (buf : Bytes) : Except HandshakeError Bytes :=
  if buf.length = 80 then Except.ok buf else Except.error HandshakeError.BadLength

/-- Modelled from the spec: open the secretbox with K2 and verify the server
signature; the client reconstructs its own client_sig for the
message-under-signature.  Any failure is the single ServerAcceptFailure
error. -/
def open_and_verify (C : Crypto) (buf sk pk server_pk net A B Cs : Bytes) :
    Except HandshakeError Unit :=
  match C.sbox_open (K2 C net A B Cs) buf with
  | none => Except.error HandshakeError.ServerAcceptFailure
  | some sig =>
    let client_sig := C.sign sk (net ++ server_pk ++ C.sha256 A)
    if C.verify server_pk sig (net ++ client_sig ++ pk ++ C.sha256 A)
    then Except.ok ()
    else Except.error HandshakeError.ServerAcceptFailure

end ServerAccept

namespace SharedA

/-- Modelled from the spec: SharedA = dh(client_eph_sk, server_eph_pk);
a DH failure is a KeyConversionFailure (spec sections 4.1 and 7). -/
def client_side (C : Crypto) (eph_sk server_eph_pk : Bytes) :
    Except HandshakeError Bytes :=
  match C.dh eph_sk server_eph_pk with
  | some a => Except.ok a
  | none => Except.error HandshakeError.KeyConversionFailure

/-- Modelled from the spec: SharedA = dh(server_eph_sk, client_eph_pk). -/
def server_side (C : Crypto) (eph_sk client_eph_pk : Bytes) :
    Except HandshakeError Bytes :=
  match C.dh eph_sk client_eph_pk with
  | some a => Except.ok a
  | none => Except.error HandshakeError.KeyConversionFailure

end SharedA

namespace SharedB

/-- Modelled from the spec: SharedB on the client is
dh(client_eph_sk, curve(server_longterm_pk)) (spec section 4.4 step 4). -/
def client_side (C : Crypto) (eph_sk server_pk : Bytes) :
    Except HandshakeError Bytes :=
  match C.pk_to_curve server_pk with
  | none => Except.error HandshakeError.KeyConversionFailure
  | some p =>
    match C.dh eph_sk p with
    | some b => Except.ok b
    | none => Except.error HandshakeError.KeyConversionFailure

/-- Modelled from the spec: SharedB on the server is
dh(curve(server_longterm_sk), client_eph_pk) (spec section 4.4 step 4). -/
def server_side (C : Crypto) (sk client_eph_pk : Bytes) :
    Except HandshakeError Bytes :=
  match C.sk_to_curve sk with
  | none => Except.error HandshakeError.KeyConversionFailure
  | some q =>
    match C.dh q client_eph_pk with
    | some b => Except.ok b
    | none => Except.error HandshakeError.KeyConversionFailure

end SharedB

namespace SharedC

/-- Modelled from the spec: SharedC on the client is
dh(curve(client_longterm_sk), server_eph_pk) (spec section 4.4 step 4). -/
def client_side (C : Crypto) (sk server_eph_pk : Bytes) :
    Except HandshakeError Bytes :=
  match C.sk_to_curve sk with
  | none => Except.error HandshakeError.KeyConversionFailure
  | some q =>
    match C.dh q server_eph_pk with
    | some c => Except.ok c
    | none => Except.error HandshakeError.KeyConversionFailure

/-- Modelled from the spec: SharedC on the server is
dh(server_eph_sk, curve(client_longterm_pk)) (spec section 4.4 step 6). -/
def server_side (C : Crypto) (eph_sk client_pk : Bytes) :
    Except HandshakeError Bytes :=
  match C.pk_to_curve client_pk with
  | none => Except.error HandshakeError.KeyConversionFailure
  | some p =>
    match C.dh eph_sk p with
    | some c => Except.ok c
    | none => Except.error HandshakeError.KeyConversionFailure

end SharedC

/-- Modelled from the spec: client_to_server_key = sha256(H_s ++
server_longterm_pk) with H_s = sha256(sha256(NetworkId ++ SharedA ++
SharedB ++ SharedC)) (spec section 4.5). -/
def client_to_server_key (C : Crypto) (server_pk net A B Cs : Bytes) : Bytes :=
  C.sha256 (C.sha256 (C.sha256 (net ++ A ++ B ++ Cs)) ++ server_pk)

/-- Modelled from the spec: server_to_client_key = sha256(H_s ++
client_longterm_pk) (spec section 4.5). -/
def server_to_client_key (C : Crypto) (client_pk net A B Cs : Bytes) : Bytes :=
  C.sha256 (C.sha256 (C.sha256 (net ++ A ++ B ++ Cs)) ++ client_pk)

/-- Little-endian increment of a byte string (carry propagation). -/
def incBytesLE : Bytes → Bytes
  | [] => []
  | b :: rest => if b = 255 then 0 :: incBytesLE rest else (b + 1) :: rest

/-- Big-endian increment of a byte string, as a 24-byte counter. -/
def incBE (bs : Bytes) : Bytes :=
  (incBytesLE bs.reverse).reverse

/-- Modelled from the spec: a nonce generator holds a 24-byte counter
initialized from the first 24 bytes of auth(NetworkId, peer_eph_pk)
(spec section 4.5); `next` returns the current value and increments. -/
structure NonceGen where
  counter : Bytes
deriving DecidableEq

namespace NonceGen

/-- Modelled from the spec: NonceGen::new(pk, net) seeds the counter with
the first 24 bytes of auth(net, pk). -/
def new (C : Crypto) (pk net : Bytes) : NonceGen :=
  ⟨(C.auth net pk).take 24⟩

/-- Return the current nonce and advance the counter (big-endian). -/
def next (g : NonceGen) : Bytes × NonceGen :=
  (g.counter, ⟨incBE g.counter⟩)

end NonceGen

/-- Modelled from the spec: the session output delivered to the caller
(read/write keys and nonce generators, spec section 3). -/
structure HandshakeOutcome where
  read_key : Bytes
  read_noncegen : NonceGen
  write_key : Bytes
  write_noncegen : NonceGen
deriving DecidableEq

/-- The client driver, translated line by line from `attempt_client_side`
in src/src/lib.rs.  The ephemeral keypair, produced there by
`client::generate_eph_keypair()` (an external CSPRNG), is taken as an
argument.  Each `?`-propagated failure returns the error with the state
reached so far. -/
def attempt_client_side (C : Crypto) (net pk sk server_pk eph_pk eph_sk : Bytes)
    (s0 : StreamState) :
    Except HandshakeError HandshakeOutcome × StreamState :=
  let s1 := emitEv Event.genEph s0
  let hello := ClientHello.new C eph_pk net
  let s2 := flushS (write_all hello s1)
  match read_exact 64 s2 with
  | (none, s3) => (Except.error HandshakeError.TransportError, s3)
  | (some buf, s3) =>
  match ServerHello.from_slice buf with
  | Except.error e => (Except.error e, s3)
  | Except.ok sh =>
  let s4 := emitEv Event.verifyHello s3
  match ServerHello.verify C sh net with
  | Except.error e => (Except.error e, s4)
  | Except.ok server_eph_pk =>
  let s5 := emitEv Event.deriveA s4
  match SharedA.client_side C eph_sk server_eph_pk with
  | Except.error e => (Except.error e, s5)
  | Except.ok shared_a =>
  let s6 := emitEv Event.deriveB s5
  match SharedB.client_side C eph_sk server_pk with
  | Except.error e => (Except.error e, s6)
  | Except.ok shared_b =>
  let s7 := emitEv Event.deriveC s6
  match SharedC.client_side C sk server_eph_pk with
  | Except.error e => (Except.error e, s7)
  | Except.ok shared_c =>
  let client_auth := ClientAuth.new C sk pk server_pk net shared_a shared_b
  let s8 := flushS (write_all client_auth s7)
  match read_exact 80 s8 with
  | (none, s9) => (Except.error HandshakeError.TransportError, s9)
  | (some buf2, s9) =>
  match ServerAccept.from_buffer buf2 with
  | Except.error e => (Except.error e, s9)
  | Except.ok sa =>
  let s10 := emitEv Event.openAccept s9
  match ServerAccept.open_and_verify C sa sk pk server_pk net shared_a shared_b shared_c with
  | Except.error e => (Except.error e, s10)
  | Except.ok _ =>
  let s11 := emitEv Event.deriveOutcome s10
  (Except.ok
    { read_key := server_to_client_key C pk net shared_a shared_b shared_c
      read_noncegen := NonceGen.new C eph_pk net
      write_key := client_to_server_key C server_pk net shared_a shared_b shared_c
      write_noncegen := NonceGen.new C server_eph_pk net },
   s11)

/-- The public client operation, translated from `client` in
src/src/lib.rs: run the attempt; on error, close the stream best-effort
(`.unwrap_or(())` swallows a close failure) and return the original
result. -/
def client (C : Crypto) (net pk sk server_pk eph_pk eph_sk : Bytes)
    (s : StreamState) :
    Except HandshakeError HandshakeOutcome × StreamState :=
  match attempt_client_side C net pk sk server_pk eph_pk eph_sk s with
  | (Except.ok o, s1) => (Except.ok o, s1)
  | (Except.error e, s1) => (Except.error e, (closeStream s1).2)

/-- The server driver, translated line by line from `attempt_server_side`
in src/src/lib.rs.  The ephemeral keypair, produced there by
`server::generate_eph_keypair()`, is taken as an argument. -/
def attempt_server_side (C : Crypto) (net pk sk eph_pk eph_sk : Bytes)
    (s0 : StreamState) :
    Except HandshakeError HandshakeOutcome × StreamState :=
  let s1 := emitEv Event.genEph s0
  match read_exact 64 s1 with
  | (none, s2) => (Except.error HandshakeError.TransportError, s2)
  | (some buf, s2) =>
  match ClientHello.from_slice buf with
  | Except.error e => (Except.error e, s2)
  | Except.ok ch =>
  let s3 := emitEv Event.verifyHello s2
  match ClientHello.verify C ch net with
  | Except.error e => (Except.error e, s3)
  | Except.ok client_eph_pk =>
  let hello := ServerHello.new C eph_pk net
  let s4 := flushS (write_all hello s3)
  let s5 := emitEv Event.deriveA s4
  match SharedA.server_side C eph_sk client_eph_pk with
  | Except.error e => (Except.error e, s5)
  | Except.ok shared_a =>
  let s6 := emitEv Event.deriveB s5
  match SharedB.server_side C sk client_eph_pk with
  | Except.error e => (Except.error e, s6)
  | Except.ok shared_b =>
  match read_exact 112 s6 with
  | (none, s7) => (Except.error HandshakeError.TransportError, s7)
  | (some buf2, s7) =>
  match ClientAuth.from_buffer buf2 with
  | Except.error e => (Except.error e, s7)
  | Except.ok ca =>
  let s8 := emitEv Event.openAuth s7
  match ClientAuth.open_and_verify C ca pk net shared_a shared_b with
  | Except.error e => (Except.error e, s8)
  | Except.ok sig_and_pk =>
  let client_sig := sig_and_pk.1
  let client_pk := sig_and_pk.2
  let s9 := emitEv Event.deriveC s8
  match SharedC.server_side C eph_sk client_pk with
  | Except.error e => (Except.error e, s9)
  | Except.ok shared_c =>
  let server_acc := ServerAccept.new C sk client_pk net client_sig shared_a shared_b shared_c
  let s10 := flushS (write_all server_acc s9)
  let s11 := emitEv Event.deriveOutcome s10
  (Except.ok
    { read_key := client_to_server_key C pk net shared_a shared_b shared_c
      read_noncegen := NonceGen.new C eph_pk net
      write_key := server_to_client_key C client_pk net shared_a shared_b shared_c
      write_noncegen := NonceGen.new C client_eph_pk net },
   s11)

/-- The public server operation, translated from `server` in
src/src/lib.rs: run the attempt; on error, close the stream best-effort and
return the original result. -/
def server (C : Crypto) (net pk sk eph_pk eph_sk : Bytes)
    (s : StreamState) :
    Except HandshakeError HandshakeOutcome × StreamState :=
  match attempt_server_side C net pk sk eph_pk eph_sk s with
  | (Except.ok o, s1) => (Except.ok o, s1)
  | (Except.error e, s1) => (Except.error e, (closeStream s1).2)

/-- The sequence of steps the client driver performs on a fully successful
run (spec section 4.4, client-side state machine). -/
def clientSuccessTrace : List Event :=
  [Event.genEph, Event.writeBytes 64, Event.flush, Event.readBytes 64,
   Event.verifyHello, Event.deriveA, Event.deriveB, Event.deriveC,
   Event.writeBytes 112, Event.flush, Event.readBytes 80, Event.openAccept,
   Event.deriveOutcome]

/-- The sequence of steps the server driver performs on a fully successful
run (spec section 4.4, server-side state machine). -/
def serverSuccessTrace : List Event :=
  [Event.genEph, Event.readBytes 64, Event.verifyHello, Event.writeBytes 64,
   Event.flush, Event.deriveA, Event.deriveB, Event.readBytes 112,
   Event.openAuth, Event.deriveC, Event.writeBytes 80, Event.flush,
   Event.deriveOutcome]

/-- A deterministic joint execution of the two drivers over a duplex pipe,
mirroring the `basic` test of src/src/lib.rs (client and server joined over
a pair of ring buffers).  Because the protocol is strictly alternating and
each side's writes depend only on the bytes it has already read, the joint
run is computed by feeding each side the peer's accumulated output until the
wire contents stabilize (two rounds suffice: hello, then auth/accept).
`spk_for_client` is the server public key handed to the client, which may
differ from the server's real key `sPk`. -/
def pairedRun (C : Crypto) (net cPk cSk spk_for_client sPk sSk cePk ceSk sePk seSk : Bytes) :
    (Except HandshakeError HandshakeOutcome × StreamState) ×
    (Except HandshakeError HandshakeOutcome × StreamState) :=
  let cOut0 := (client C net cPk cSk spk_for_client cePk ceSk (initState [] false)).2.out
  let sOut1 := (server C net sPk sSk sePk seSk (initState cOut0 false)).2.out
  let cOut1 := (client C net cPk cSk spk_for_client cePk ceSk (initState sOut1 false)).2.out
  let sOut2 := (server C net sPk sSk sePk seSk (initState cOut1 false)).2.out
  (client C net cPk cSk spk_for_client cePk ceSk (initState sOut2 false),
   server C net sPk sSk sePk seSk (initState cOut1 false))

/-- The session output the client driver builds on success (src/src/lib.rs
lines 75 to 81), as a function of the derived shared secrets. -/
def clientOutcome (C : Crypto) (net cPk sPk cePk sePk A B Cs : Bytes) : HandshakeOutcome :=
  { read_key := server_to_client_key C cPk net A B Cs
    read_noncegen := NonceGen.new C cePk net
    write_key := client_to_server_key C sPk net A B Cs
    write_noncegen := NonceGen.new C sePk net }

/-- The session output the server driver builds on success (src/src/lib.rs
lines 142 to 148), as a function of the derived shared secrets. -/
def serverOutcome (C : Crypto) (net cPk sPk cePk sePk A B Cs : Bytes) : HandshakeOutcome :=
  { read_key := client_to_server_key C sPk net A B Cs
    read_noncegen := NonceGen.new C sePk net
    write_key := server_to_client_key C cPk net A B Cs
    write_noncegen := NonceGen.new C cePk net }

/-- The spec's validity assumptions for a paired run (section 8: valid
long-term key pairs on both sides, honest primitives): the primitive
operations have their contracted output lengths, the two sides' three
Diffie-Hellman derivations agree (A, B, Cs), the secretbox roundtrips under
an equal key, and each side's signature verifies under the signer's public
key.  `A`, `B`, `Cs` name the three shared secrets of the session. -/
structure GoodRun (C : Crypto) (net cPk cSk sPk sSk cePk ceSk sePk seSk A B Cs : Bytes) : Prop where
  auth_len : ∀ k m, (C.auth k m).length = 32
  sign_len : ∀ k m, (C.sign k m).length = 64
  seal_len : ∀ k m, (C.sbox_seal k m).length = m.length + 16
  cePk_len : cePk.length = 32
  sePk_len : sePk.length = 32
  cPk_len : cPk.length = 32
  dh_eph_client : C.dh ceSk sePk = some A
  dh_eph_server : C.dh seSk cePk = some A
  dh_B_client : ∃ p, C.pk_to_curve sPk = some p ∧ C.dh ceSk p = some B
  dh_B_server : ∃ r, C.sk_to_curve sSk = some r ∧ C.dh r cePk = some B
  dh_C_client : ∃ q, C.sk_to_curve cSk = some q ∧ C.dh q sePk = some Cs
  dh_C_server : ∃ t, C.pk_to_curve cPk = some t ∧ C.dh seSk t = some Cs
  sbox_roundtrip : ∀ k m, C.sbox_open k (C.sbox_seal k m) = some m
  verify_client_sig : C.verify cPk (C.sign cSk (net ++ sPk ++ C.sha256 A))
    (net ++ sPk ++ C.sha256 A) = true
  verify_server_sig : C.verify sPk
    (C.sign sSk (net ++ C.sign cSk (net ++ sPk ++ C.sha256 A) ++ cPk ++ C.sha256 A))
    (net ++ C.sign cSk (net ++ sPk ++ C.sha256 A) ++ cPk ++ C.sha256 A) = true

/-- A deterministic mixing function used by the concrete test
instantiation of the primitives. -/
def hashOf (m : Bytes) : Nat :=
  m.foldl (fun a b => (a * 65599 + b + 1) % 1000000007) 7

/-- A concrete test instantiation of the primitives facade, used to witness
the theorems at concrete inputs.  Key pairs are taken with pk = sk, so
Diffie-Hellman agreement holds by commutativity of multiplication, and
signatures and secretbox tags are recomputable hashes. -/
def toy : Crypto where
  auth k m := List.replicate 32 (hashOf (k ++ 1 :: m))
  sha256 m := List.replicate 32 (hashOf (2 :: m))
  dh sk p := some (List.replicate 32 ((hashOf sk * hashOf p) % 1000000007))
  pk_to_curve p := some p
  sk_to_curve s := some s
  sign sk m := List.replicate 64 (hashOf (sk ++ 4 :: m))
  verify pk sig m := decide (sig = List.replicate 64 (hashOf (pk ++ 4 :: m)))
  sbox_seal k m := List.replicate 16 (hashOf (k ++ 5 :: m)) ++ m
  sbox_open k ct :=
    if ct.take 16 = List.replicate 16 (hashOf (k ++ 5 :: ct.drop 16))
    then some (ct.drop 16) else none

/-- Concrete test network identifier. -/
def tNet : Bytes := [6]

/-- Concrete test client ephemeral key (pk = sk under `toy`). -/
def tCePk : Bytes := List.replicate 32 1

/-- Concrete test server ephemeral key (pk = sk under `toy`). -/
def tSePk : Bytes := List.replicate 32 2

/-- Concrete test client long-term key (pk = sk under `toy`). -/
def tCPk : Bytes := List.replicate 32 3

/-- Concrete test server long-term key (pk = sk under `toy`). -/
def tSPk : Bytes := List.replicate 32 4

/-- Concrete wrong server key handed to the client in the bad-key scenario. -/
def tBadPk : Bytes := List.replicate 32 5

/-- The three shared secrets of the concrete happy-path run under `toy`. -/
def tA : Bytes := (toy.dh tCePk tSePk).getD []

/-- The concrete SharedB under `toy`. -/
def tB : Bytes := (toy.dh tCePk tSPk).getD []

/-- The concrete SharedC under `toy`. -/
def tCs : Bytes := (toy.dh tCPk tSePk).getD []

/-- The concrete SharedB the client derives from the wrong server key. -/
def tBbad : Bytes := (toy.dh tCePk tBadPk).getD []

theorem read_exact_append (a b o : Bytes) (cl ce : Bool) (tr : List Event) (n : Nat)
    (h : a.length = n) :
    read_exact n ⟨a ++ b, o, cl, ce, tr⟩ =
      (some a, ⟨b, o, cl, ce, tr ++ [Event.readBytes n]⟩) := by
  subst h
  simp [read_exact, List.take_left, List.drop_left]

theorem read_exact_all (a o : Bytes) (cl ce : Bool) (tr : List Event) (n : Nat)
    (h : a.length = n) :
    read_exact n ⟨a, o, cl, ce, tr⟩ =
      (some a, ⟨[], o, cl, ce, tr ++ [Event.readBytes n]⟩) := by
  subst h
  simp [read_exact, List.take_of_length_le, List.drop_of_length_le]

theorem read_exact_short (s : StreamState) (n : Nat) (h : s.inp.length < n) :
    read_exact n s = (none, {s with trace := s.trace ++ [Event.readBytes n]}) := by
  have : ¬ n ≤ s.inp.length := by omega
  simp [read_exact, this]

theorem serverHello_verify_new (C : Crypto) (pk net : Bytes)
    (h : (C.auth net pk).length = 32) :
    ServerHello.verify C (ServerHello.new C pk net) net = Except.ok pk := by
  simp [ServerHello.verify, ServerHello.new, List.take_left' h, List.drop_left' h]

theorem clientHello_verify_new (C : Crypto) (pk net : Bytes)
    (h : (C.auth net pk).length = 32) :
    ClientHello.verify C (ClientHello.new C pk net) net = Except.ok pk := by
  simp [ClientHello.verify, ClientHello.new, List.take_left' h, List.drop_left' h]

theorem serverHello_new_length (C : Crypto) (pk net : Bytes)
    (h : (C.auth net pk).length = 32) (h2 : pk.length = 32) :
    (ServerHello.new C pk net).length = 64 := by
  simp [ServerHello.new, h, h2]

theorem clientHello_new_length (C : Crypto) (pk net : Bytes)
    (h : (C.auth net pk).length = 32) (h2 : pk.length = 32) :
    (ClientHello.new C pk net).length = 64 := by
  simp [ClientHello.new, h, h2]

theorem serverHello_from_slice_of_len (buf : Bytes) (h : buf.length = 64) :
    ServerHello.from_slice buf = Except.ok buf := by
  simp [ServerHello.from_slice, h]

theorem clientHello_from_slice_of_len (buf : Bytes) (h : buf.length = 64) :
    ClientHello.from_slice buf = Except.ok buf := by
  simp [ClientHello.from_slice, h]

theorem client_short_eval (C : Crypto) (net cPk cSk sPk cePk ceSk pre : Bytes) (cerr : Bool)
    (hauth : ∀ k m, (C.auth k m).length = 32)
    (hce : cePk.length = 32)
    (h : pre.length < 64) :
    attempt_client_side C net cPk cSk sPk cePk ceSk (initState pre cerr) =
      (Except.error HandshakeError.TransportError,
       ⟨pre, ClientHello.new C cePk net, false, cerr,
        [Event.genEph, Event.writeBytes 64, Event.flush, Event.readBytes 64]⟩) := by
  unfold attempt_client_side
  simp only [initState, emitEv, write_all, flushS, List.nil_append]
  rw [read_exact_short _ _ (by simpa using h)]
  simp [clientHello_new_length C cePk net (hauth net cePk) hce]

theorem client_full_eval (C : Crypto) (net cPk cSk sPk sSk cePk ceSk sePk A B Cs rest : Bytes)
    (cerr : Bool)
    (hauth : ∀ k m, (C.auth k m).length = 32)
    (hsig : ∀ k m, (C.sign k m).length = 64)
    (hseal : ∀ k m, (C.sbox_seal k m).length = m.length + 16)
    (hce : cePk.length = 32) (hse : sePk.length = 32) (hcp : cPk.length = 32)
    (hA : C.dh ceSk sePk = some A)
    (p : Bytes) (hp1 : C.pk_to_curve sPk = some p) (hp2 : C.dh ceSk p = some B)
    (q : Bytes) (hq1 : C.sk_to_curve cSk = some q) (hq2 : C.dh q sePk = some Cs)
    (hopen : ∀ k m, C.sbox_open k (C.sbox_seal k m) = some m)
    (hverS : C.verify sPk
        (C.sign sSk (net ++ C.sign cSk (net ++ sPk ++ C.sha256 A) ++ cPk ++ C.sha256 A))
        (net ++ C.sign cSk (net ++ sPk ++ C.sha256 A) ++ cPk ++ C.sha256 A) = true) :
    attempt_client_side C net cPk cSk sPk cePk ceSk
      (initState (ServerHello.new C sePk net ++
        (ServerAccept.new C sSk cPk net (C.sign cSk (net ++ sPk ++ C.sha256 A)) A B Cs ++ rest)) cerr) =
      (Except.ok
        { read_key := server_to_client_key C cPk net A B Cs
          read_noncegen := NonceGen.new C cePk net
          write_key := client_to_server_key C sPk net A B Cs
          write_noncegen := NonceGen.new C sePk net },
       ⟨rest, ClientHello.new C cePk net ++ ClientAuth.new C cSk cPk sPk net A B,
        false, cerr, clientSuccessTrace⟩) := by
  simp only [List.append_assoc] at hverS
  unfold attempt_client_side
  simp only [initState, emitEv, write_all, flushS, List.nil_append]
  rw [read_exact_append _ _ _ _ _ _ _ (serverHello_new_length C sePk net (hauth net sePk) hse)]
  simp only [serverHello_from_slice_of_len _ (serverHello_new_length C sePk net (hauth net sePk) hse),
    serverHello_verify_new C sePk net (hauth net sePk)]
  simp only [SharedA.client_side, hA, SharedB.client_side, hp1, hp2,
    SharedC.client_side, hq1, hq2]
  rw [read_exact_append _ _ _ _ _ _ _ (by
    simp [ServerAccept.new, hseal, hsig])]
  simp only [ServerAccept.from_buffer, ServerAccept.new, hseal, hsig,
    ServerAccept.open_and_verify, hopen, K2, hverS]
  simp [clientHello_new_length C cePk net (hauth net cePk) hce,
    ClientAuth.new, hseal, hsig, hcp, clientSuccessTrace, K1, hopen, hverS,
    server_to_client_key, client_to_server_key, NonceGen.new]

theorem client_mid_eval (C : Crypto) (net cPk cSk spk cePk ceSk sePk A B Cs pre : Bytes)
    (cerr : Bool)
    (hauth : ∀ k m, (C.auth k m).length = 32)
    (hsig : ∀ k m, (C.sign k m).length = 64)
    (hseal : ∀ k m, (C.sbox_seal k m).length = m.length + 16)
    (hce : cePk.length = 32) (hse : sePk.length = 32) (hcp : cPk.length = 32)
    (hA : C.dh ceSk sePk = some A)
    (p : Bytes) (hp1 : C.pk_to_curve spk = some p) (hp2 : C.dh ceSk p = some B)
    (q : Bytes) (hq1 : C.sk_to_curve cSk = some q) (hq2 : C.dh q sePk = some Cs)
    (hpre : pre.length < 80) :
    attempt_client_side C net cPk cSk spk cePk ceSk
      (initState (ServerHello.new C sePk net ++ pre) cerr) =
      (Except.error HandshakeError.TransportError,
       ⟨pre, ClientHello.new C cePk net ++ ClientAuth.new C cSk cPk spk net A B,
        false, cerr,
        [Event.genEph, Event.writeBytes 64, Event.flush, Event.readBytes 64,
         Event.verifyHello, Event.deriveA, Event.deriveB, Event.deriveC,
         Event.writeBytes 112, Event.flush, Event.readBytes 80]⟩) := by
  unfold attempt_client_side
  simp only [initState, emitEv, write_all, flushS, List.nil_append]
  rw [read_exact_append _ _ _ _ _ _ _ (serverHello_new_length C sePk net (hauth net sePk) hse)]
  simp only [serverHello_from_slice_of_len _ (serverHello_new_length C sePk net (hauth net sePk) hse),
    serverHello_verify_new C sePk net (hauth net sePk)]
  simp only [SharedA.client_side, hA, SharedB.client_side, hp1, hp2,
    SharedC.client_side, hq1, hq2]
  rw [read_exact_short _ _ (by simpa using hpre)]
  simp [clientHello_new_length C cePk net (hauth net cePk) hce,
    ClientAuth.new, hseal, hsig, hcp, K1]

theorem server_short_eval (C : Crypto) (net sPk sSk sePk seSk pre : Bytes) (cerr : Bool)
    (hpre : pre.length < 64) :
    attempt_server_side C net sPk sSk sePk seSk (initState pre cerr) =
      (Except.error HandshakeError.TransportError,
       ⟨pre, [], false, cerr, [Event.genEph, Event.readBytes 64]⟩) := by
  unfold attempt_server_side
  simp only [initState, emitEv, write_all, flushS, List.nil_append]
  rw [read_exact_short _ _ (by simpa using hpre)]
  simp

theorem server_mid_eval (C : Crypto) (net sPk sSk cePk sePk seSk A B pre : Bytes)
    (cerr : Bool)
    (hauth : ∀ k m, (C.auth k m).length = 32)
    (hce : cePk.length = 32) (hse : sePk.length = 32)
    (hA : C.dh seSk cePk = some A)
    (r : Bytes) (hr1 : C.sk_to_curve sSk = some r) (hr2 : C.dh r cePk = some B)
    (hpre : pre.length < 112) :
    attempt_server_side C net sPk sSk sePk seSk
      (initState (ClientHello.new C cePk net ++ pre) cerr) =
      (Except.error HandshakeError.TransportError,
       ⟨pre, ServerHello.new C sePk net, false, cerr,
        [Event.genEph, Event.readBytes 64, Event.verifyHello, Event.writeBytes 64,
         Event.flush, Event.deriveA, Event.deriveB, Event.readBytes 112]⟩) := by
  unfold attempt_server_side
  simp only [initState, emitEv, write_all, flushS, List.nil_append]
  rw [read_exact_append _ _ _ _ _ _ _ (clientHello_new_length C cePk net (hauth net cePk) hce)]
  simp only [clientHello_from_slice_of_len _ (clientHello_new_length C cePk net (hauth net cePk) hce),
    clientHello_verify_new C cePk net (hauth net cePk)]
  simp only [SharedA.server_side, hA, SharedB.server_side, hr1, hr2]
  rw [read_exact_short _ _ (by simpa using hpre)]
  simp [serverHello_new_length C sePk net (hauth net sePk) hse]

theorem server_full_eval (C : Crypto) (net cPk cSk sPk sSk cePk sePk seSk A B Cs rest : Bytes)
    (cerr : Bool)
    (hauth : ∀ k m, (C.auth k m).length = 32)
    (hsig : ∀ k m, (C.sign k m).length = 64)
    (hseal : ∀ k m, (C.sbox_seal k m).length = m.length + 16)
    (hce : cePk.length = 32) (hse : sePk.length = 32) (hcp : cPk.length = 32)
    (hA : C.dh seSk cePk = some A)
    (r : Bytes) (hr1 : C.sk_to_curve sSk = some r) (hr2 : C.dh r cePk = some B)
    (t : Bytes) (ht1 : C.pk_to_curve cPk = some t) (ht2 : C.dh seSk t = some Cs)
    (hopen : ∀ k m, C.sbox_open k (C.sbox_seal k m) = some m)
    (hverC : C.verify cPk (C.sign cSk (net ++ sPk ++ C.sha256 A))
        (net ++ sPk ++ C.sha256 A) = true) :
    attempt_server_side C net sPk sSk sePk seSk
      (initState (ClientHello.new C cePk net ++
        (ClientAuth.new C cSk cPk sPk net A B ++ rest)) cerr) =
      (Except.ok
        { read_key := client_to_server_key C sPk net A B Cs
          read_noncegen := NonceGen.new C sePk net
          write_key := server_to_client_key C cPk net A B Cs
          write_noncegen := NonceGen.new C cePk net },
       ⟨rest, ServerHello.new C sePk net ++
          ServerAccept.new C sSk cPk net (C.sign cSk (net ++ sPk ++ C.sha256 A)) A B Cs,
        false, cerr, serverSuccessTrace⟩) := by
  simp only [List.append_assoc] at hverC
  unfold attempt_server_side
  simp only [initState, emitEv, write_all, flushS, List.nil_append]
  rw [read_exact_append _ _ _ _ _ _ _ (clientHello_new_length C cePk net (hauth net cePk) hce)]
  simp only [clientHello_from_slice_of_len _ (clientHello_new_length C cePk net (hauth net cePk) hce),
    clientHello_verify_new C cePk net (hauth net cePk)]
  simp only [SharedA.server_side, hA, SharedB.server_side, hr1, hr2]
  rw [read_exact_append _ _ _ _ _ _ _ (by
    simp [ClientAuth.new, hseal, hsig, hcp])]
  simp [ClientAuth.from_buffer, ClientAuth.new, ClientAuth.open_and_verify,
    hseal, hsig, hcp, hopen, K1, List.take_left', List.drop_left', hverC,
    SharedC.server_side, ht1, ht2,
    serverHello_new_length C sePk net (hauth net sePk) hse,
    ServerAccept.new, serverSuccessTrace, K2,
    server_to_client_key, client_to_server_key, NonceGen.new]

theorem server_badauth_eval (C : Crypto) (net cPk cSk badPk sPk sSk cePk sePk seSk A B Bbad rest : Bytes)
    (cerr : Bool)
    (hauth : ∀ k m, (C.auth k m).length = 32)
    (hsig : ∀ k m, (C.sign k m).length = 64)
    (hseal : ∀ k m, (C.sbox_seal k m).length = m.length + 16)
    (hce : cePk.length = 32) (hse : sePk.length = 32) (hcp : cPk.length = 32)
    (hA : C.dh seSk cePk = some A)
    (r : Bytes) (hr1 : C.sk_to_curve sSk = some r) (hr2 : C.dh r cePk = some B)
    (hnone : C.sbox_open (C.sha256 (net ++ A ++ B))
      (ClientAuth.new C cSk cPk badPk net A Bbad) = none) :
    attempt_server_side C net sPk sSk sePk seSk
      (initState (ClientHello.new C cePk net ++
        (ClientAuth.new C cSk cPk badPk net A Bbad ++ rest)) cerr) =
      (Except.error HandshakeError.ClientAuthFailure,
       ⟨rest, ServerHello.new C sePk net, false, cerr,
        [Event.genEph, Event.readBytes 64, Event.verifyHello, Event.writeBytes 64,
         Event.flush, Event.deriveA, Event.deriveB, Event.readBytes 112,
         Event.openAuth]⟩) := by
  simp only [List.append_assoc, ClientAuth.new, K1] at hnone
  unfold attempt_server_side
  simp only [initState, emitEv, write_all, flushS, List.nil_append]
  rw [read_exact_append _ _ _ _ _ _ _ (clientHello_new_length C cePk net (hauth net cePk) hce)]
  simp only [clientHello_from_slice_of_len _ (clientHello_new_length C cePk net (hauth net cePk) hce),
    clientHello_verify_new C cePk net (hauth net cePk)]
  simp only [SharedA.server_side, hA, SharedB.server_side, hr1, hr2]
  rw [read_exact_append _ _ _ _ _ _ _ (by
    simp [ClientAuth.new, hseal, hsig, hcp])]
  simp [ClientAuth.from_buffer, ClientAuth.new, ClientAuth.open_and_verify,
    hseal, hsig, hcp, K1, hnone,
    serverHello_new_length C sePk net (hauth net sePk) hse]

theorem attempt_client_state (C : Crypto) (net pk sk spk cePk ceSk inp : Bytes) (cerr : Bool) :
    (attempt_client_side C net pk sk spk cePk ceSk (initState inp cerr)).2.closed = false ∧
    (attempt_client_side C net pk sk spk cePk ceSk (initState inp cerr)).2.closeErr = cerr ∧
    Event.close ∉ (attempt_client_side C net pk sk spk cePk ceSk (initState inp cerr)).2.trace := by
  unfold attempt_client_side
  simp only [initState, emitEv, write_all, flushS, List.nil_append]
  by_cases h1 : 64 ≤ inp.length
  case neg => simp [read_exact, h1]
  simp only [read_exact, h1, if_true]
  simp only [ServerHello.from_slice, List.length_take, Nat.min_eq_left h1, if_true]
  by_cases h2 : C.auth net ((inp.take 64).drop 32) = (inp.take 64).take 32
  case neg => simp [ServerHello.verify, h2]
  simp only [ServerHello.verify, h2, if_true]
  rcases h3 : C.dh ceSk ((inp.take 64).drop 32) with _ | A
  · simp [SharedA.client_side, h3]
  simp only [SharedA.client_side, h3]
  rcases h4 : C.pk_to_curve spk with _ | p
  · simp [SharedB.client_side, h4]
  rcases h5 : C.dh ceSk p with _ | B
  · simp [SharedB.client_side, h4, h5]
  simp only [SharedB.client_side, h4, h5]
  rcases h6 : C.sk_to_curve sk with _ | q
  · simp [SharedC.client_side, h6]
  rcases h7 : C.dh q ((inp.take 64).drop 32) with _ | Cs
  · simp [SharedC.client_side, h6, h7]
  simp only [SharedC.client_side, h6, h7]
  by_cases h8 : 80 ≤ (List.drop 64 inp).length
  case neg =>
    rw [if_neg h8]
    simp
  rw [if_pos h8]
  simp only [ServerAccept.from_buffer, List.length_take, Nat.min_eq_left h8, if_true]
  rcases h9 : C.sbox_open (K2 C net A B Cs) (((inp.drop 64)).take 80) with _ | sig
  · simp [ServerAccept.open_and_verify, h9]
  by_cases h10 : C.verify spk sig (net ++ C.sign sk (net ++ spk ++ C.sha256 A) ++ pk ++ C.sha256 A) = true
  all_goals simp only [List.append_assoc] at h10
  case neg => simp [ServerAccept.open_and_verify, h9, h10]
  simp [ServerAccept.open_and_verify, h9, h10]

theorem attempt_client_prefix (C : Crypto) (net pk sk spk cePk ceSk inp : Bytes) (cerr : Bool)
    (hauth : ∀ k m, (C.auth k m).length = 32)
    (hsig : ∀ k m, (C.sign k m).length = 64)
    (hseal : ∀ k m, (C.sbox_seal k m).length = m.length + 16)
    (hce : cePk.length = 32) (hcp : pk.length = 32) :
    (∃ n, (attempt_client_side C net pk sk spk cePk ceSk (initState inp cerr)).2.trace
        = clientSuccessTrace.take n) ∧
    ((∃ o, (attempt_client_side C net pk sk spk cePk ceSk (initState inp cerr)).1
        = Except.ok o) ↔
      (attempt_client_side C net pk sk spk cePk ceSk (initState inp cerr)).2.trace
        = clientSuccessTrace) := by
  have h64 := clientHello_new_length C cePk net (hauth net cePk) hce
  unfold attempt_client_side
  simp only [initState, emitEv, write_all, flushS, List.nil_append]
  by_cases h1 : 64 ≤ inp.length
  case neg => exact ⟨⟨4, by simp [read_exact, h1, clientSuccessTrace, h64]⟩,
    by simp [read_exact, h1, clientSuccessTrace, h64]⟩
  simp only [read_exact, h1, if_true]
  simp only [ServerHello.from_slice, List.length_take, Nat.min_eq_left h1, if_true]
  by_cases h2 : C.auth net ((inp.take 64).drop 32) = (inp.take 64).take 32
  case neg => exact ⟨⟨5, by simp [ServerHello.verify, h2, clientSuccessTrace, h64]⟩,
    by simp [ServerHello.verify, h2, clientSuccessTrace, h64]⟩
  simp only [ServerHello.verify, h2, if_true]
  rcases h3 : C.dh ceSk ((inp.take 64).drop 32) with _ | A
  · exact ⟨⟨6, by simp [SharedA.client_side, h3, clientSuccessTrace, h64]⟩,
      by simp [SharedA.client_side, h3, clientSuccessTrace, h64]⟩
  simp only [SharedA.client_side, h3]
  rcases h4 : C.pk_to_curve spk with _ | p
  · exact ⟨⟨7, by simp [SharedB.client_side, h4, clientSuccessTrace, h64]⟩,
      by simp [SharedB.client_side, h4, clientSuccessTrace, h64]⟩
  rcases h5 : C.dh ceSk p with _ | B
  · exact ⟨⟨7, by simp [SharedB.client_side, h4, h5, clientSuccessTrace, h64]⟩,
      by simp [SharedB.client_side, h4, h5, clientSuccessTrace, h64]⟩
  simp only [SharedB.client_side, h4, h5]
  rcases h6 : C.sk_to_curve sk with _ | q
  · exact ⟨⟨8, by simp [SharedC.client_side, h6, clientSuccessTrace, h64]⟩,
      by simp [SharedC.client_side, h6, clientSuccessTrace, h64]⟩
  rcases h7 : C.dh q ((inp.take 64).drop 32) with _ | Cs
  · exact ⟨⟨8, by simp [SharedC.client_side, h6, h7, clientSuccessTrace, h64]⟩,
      by simp [SharedC.client_side, h6, h7, clientSuccessTrace, h64]⟩
  simp only [SharedC.client_side, h6, h7]
  have h112 : (ClientAuth.new C sk pk spk net A B).length = 112 := by
    simp [ClientAuth.new, hseal, hsig, hcp]
  by_cases h8 : 80 ≤ (List.drop 64 inp).length
  case neg =>
    rw [if_neg h8]
    exact ⟨⟨11, by simp [clientSuccessTrace, h64, h112]⟩,
      by simp [clientSuccessTrace, h64, h112]⟩
  rw [if_pos h8]
  simp only [ServerAccept.from_buffer, List.length_take, Nat.min_eq_left h8, if_true]
  rcases h9 : C.sbox_open (K2 C net A B Cs) (((inp.drop 64)).take 80) with _ | sig
  · exact ⟨⟨12, by simp [ServerAccept.open_and_verify, h9, clientSuccessTrace, h64, h112]⟩,
      by simp [ServerAccept.open_and_verify, h9, clientSuccessTrace, h64, h112]⟩
  by_cases h10 : C.verify spk sig (net ++ C.sign sk (net ++ spk ++ C.sha256 A) ++ pk ++ C.sha256 A) = true
  all_goals simp only [List.append_assoc] at h10
  case neg => exact ⟨⟨12, by simp [ServerAccept.open_and_verify, h9, h10, clientSuccessTrace, h64, h112]⟩,
    by simp [ServerAccept.open_and_verify, h9, h10, clientSuccessTrace, h64, h112]⟩
  exact ⟨⟨13, by simp [ServerAccept.open_and_verify, h9, h10, clientSuccessTrace, h64, h112]⟩,
    by simp [ServerAccept.open_and_verify, h9, h10, clientSuccessTrace, h64, h112]⟩

theorem attempt_server_state (C : Crypto) (net pk sk sePk seSk inp : Bytes) (cerr : Bool) :
    (attempt_server_side C net pk sk sePk seSk (initState inp cerr)).2.closed = false ∧
    (attempt_server_side C net pk sk sePk seSk (initState inp cerr)).2.closeErr = cerr ∧
    Event.close ∉ (attempt_server_side C net pk sk sePk seSk (initState inp cerr)).2.trace := by
  unfold attempt_server_side
  simp only [initState, emitEv, write_all, flushS, List.nil_append]
  by_cases h1 : 64 ≤ inp.length
  case neg => simp [read_exact, h1]
  simp only [read_exact, h1, if_true]
  simp only [ClientHello.from_slice, List.length_take, Nat.min_eq_left h1, if_true]
  by_cases h2 : C.auth net ((inp.take 64).drop 32) = (inp.take 64).take 32
  case neg => simp [ClientHello.verify, h2]
  simp only [ClientHello.verify, h2, if_true]
  rcases h3 : C.dh seSk ((inp.take 64).drop 32) with _ | A
  · simp [SharedA.server_side, h3]
  simp only [SharedA.server_side, h3]
  rcases h4 : C.sk_to_curve sk with _ | r
  · simp [SharedB.server_side, h4]
  rcases h5 : C.dh r ((inp.take 64).drop 32) with _ | B
  · simp [SharedB.server_side, h4, h5]
  simp only [SharedB.server_side, h4, h5]
  by_cases h8 : 112 ≤ (List.drop 64 inp).length
  case neg =>
    rw [if_neg h8]
    simp
  rw [if_pos h8]
  simp only [ClientAuth.from_buffer, List.length_take, Nat.min_eq_left h8, if_true]
  rcases h9 : C.sbox_open (K1 C net A B) (((inp.drop 64)).take 112) with _ | payload
  · simp [ClientAuth.open_and_verify, h9]
  by_cases h10 : C.verify (payload.drop 64) (payload.take 64) (net ++ pk ++ C.sha256 A) = true
  case neg =>
    simp only [ClientAuth.open_and_verify, h9]
    rw [if_neg h10]
    simp
  simp only [ClientAuth.open_and_verify, h9]
  rw [if_pos h10]
  rcases h11 : C.pk_to_curve (payload.drop 64) with _ | t
  · simp [SharedC.server_side, h11]
  rcases h12 : C.dh seSk t with _ | Cs
  · simp [SharedC.server_side, h11, h12]
  simp [SharedC.server_side, h11, h12]

theorem attempt_server_prefix (C : Crypto) (net pk sk sePk seSk inp : Bytes) (cerr : Bool)
    (hauth : ∀ k m, (C.auth k m).length = 32)
    (hsig : ∀ k m, (C.sign k m).length = 64)
    (hseal : ∀ k m, (C.sbox_seal k m).length = m.length + 16)
    (hse : sePk.length = 32) :
    (∃ n, (attempt_server_side C net pk sk sePk seSk (initState inp cerr)).2.trace
        = serverSuccessTrace.take n) ∧
    ((∃ o, (attempt_server_side C net pk sk sePk seSk (initState inp cerr)).1
        = Except.ok o) ↔
      (attempt_server_side C net pk sk sePk seSk (initState inp cerr)).2.trace
        = serverSuccessTrace) := by
  have h64 := serverHello_new_length C sePk net (hauth net sePk) hse
  unfold attempt_server_side
  simp only [initState, emitEv, write_all, flushS, List.nil_append]
  by_cases h1 : 64 ≤ inp.length
  case neg => exact ⟨⟨2, by simp [read_exact, h1, serverSuccessTrace]⟩,
    by simp [read_exact, h1, serverSuccessTrace]⟩
  simp only [read_exact, h1, if_true]
  simp only [ClientHello.from_slice, List.length_take, Nat.min_eq_left h1, if_true]
  by_cases h2 : C.auth net ((inp.take 64).drop 32) = (inp.take 64).take 32
  case neg => exact ⟨⟨3, by simp [ClientHello.verify, h2, serverSuccessTrace]⟩,
    by simp [ClientHello.verify, h2, serverSuccessTrace]⟩
  simp only [ClientHello.verify, h2, if_true]
  rcases h3 : C.dh seSk ((inp.take 64).drop 32) with _ | A
  · exact ⟨⟨6, by simp [SharedA.server_side, h3, serverSuccessTrace, h64]⟩,
      by simp [SharedA.server_side, h3, serverSuccessTrace, h64]⟩
  simp only [SharedA.server_side, h3]
  rcases h4 : C.sk_to_curve sk with _ | r
  · exact ⟨⟨7, by simp [SharedB.server_side, h4, serverSuccessTrace, h64]⟩,
      by simp [SharedB.server_side, h4, serverSuccessTrace, h64]⟩
  rcases h5 : C.dh r ((inp.take 64).drop 32) with _ | B
  · exact ⟨⟨7, by simp [SharedB.server_side, h4, h5, serverSuccessTrace, h64]⟩,
      by simp [SharedB.server_side, h4, h5, serverSuccessTrace, h64]⟩
  simp only [SharedB.server_side, h4, h5]
  by_cases h8 : 112 ≤ (List.drop 64 inp).length
  case neg =>
    rw [if_neg h8]
    exact ⟨⟨8, by simp [serverSuccessTrace, h64]⟩, by simp [serverSuccessTrace, h64]⟩
  rw [if_pos h8]
  simp only [ClientAuth.from_buffer, List.length_take, Nat.min_eq_left h8, if_true]
  rcases h9 : C.sbox_open (K1 C net A B) (((inp.drop 64)).take 112) with _ | payload
  · exact ⟨⟨9, by simp [ClientAuth.open_and_verify, h9, serverSuccessTrace, h64]⟩,
      by simp [ClientAuth.open_and_verify, h9, serverSuccessTrace, h64]⟩
  by_cases h10 : C.verify (payload.drop 64) (payload.take 64) (net ++ pk ++ C.sha256 A) = true
  case neg =>
    simp only [ClientAuth.open_and_verify, h9]
    rw [if_neg h10]
    exact ⟨⟨9, by simp [serverSuccessTrace, h64]⟩, by simp [serverSuccessTrace, h64]⟩
  simp only [ClientAuth.open_and_verify, h9]
  rw [if_pos h10]
  rcases h11 : C.pk_to_curve (payload.drop 64) with _ | t
  · exact ⟨⟨10, by simp [SharedC.server_side, h11, serverSuccessTrace, h64]⟩,
      by simp [SharedC.server_side, h11, serverSuccessTrace, h64]⟩
  rcases h12 : C.dh seSk t with _ | Cs
  · exact ⟨⟨10, by simp [SharedC.server_side, h11, h12, serverSuccessTrace, h64]⟩,
      by simp [SharedC.server_side, h11, h12, serverSuccessTrace, h64]⟩
  have h80 : (ServerAccept.new C sk (payload.drop 64) net (payload.take 64) A B Cs).length = 80 := by
    simp [ServerAccept.new, hseal, hsig]
  exact ⟨⟨13, by simp [SharedC.server_side, h11, h12, serverSuccessTrace, h64, h80]⟩,
    by simp [SharedC.server_side, h11, h12, serverSuccessTrace, h64, h80]⟩

theorem client_wrapper_ok {C : Crypto} {net pk sk spk cePk ceSk : Bytes}
    {s : StreamState} {o : HandshakeOutcome} {st : StreamState}
    (h : attempt_client_side C net pk sk spk cePk ceSk s = (Except.ok o, st)) :
    client C net pk sk spk cePk ceSk s = (Except.ok o, st) := by
  unfold client
  rw [h]

theorem client_wrapper_err {C : Crypto} {net pk sk spk cePk ceSk : Bytes}
    {s : StreamState} {e : HandshakeError} {st : StreamState}
    (h : attempt_client_side C net pk sk spk cePk ceSk s = (Except.error e, st)) :
    client C net pk sk spk cePk ceSk s =
      (Except.error e, ⟨st.inp, st.out, true, st.closeErr, st.trace ++ [Event.close]⟩) := by
  unfold client
  rw [h]
  simp [closeStream]

theorem server_wrapper_ok {C : Crypto} {net pk sk sePk seSk : Bytes}
    {s : StreamState} {o : HandshakeOutcome} {st : StreamState}
    (h : attempt_server_side C net pk sk sePk seSk s = (Except.ok o, st)) :
    server C net pk sk sePk seSk s = (Except.ok o, st) := by
  unfold server
  rw [h]

theorem server_wrapper_err {C : Crypto} {net pk sk sePk seSk : Bytes}
    {s : StreamState} {e : HandshakeError} {st : StreamState}
    (h : attempt_server_side C net pk sk sePk seSk s = (Except.error e, st)) :
    server C net pk sk sePk seSk s =
      (Except.error e, ⟨st.inp, st.out, true, st.closeErr, st.trace ++ [Event.close]⟩) := by
  unfold server
  rw [h]
  simp [closeStream]

theorem pairedRun_happy (C : Crypto) (net cPk cSk sPk sSk cePk ceSk sePk seSk A B Cs : Bytes)
    (G : GoodRun C net cPk cSk sPk sSk cePk ceSk sePk seSk A B Cs) :
    pairedRun C net cPk cSk sPk sPk sSk cePk ceSk sePk seSk =
      ((Except.ok (clientOutcome C net cPk sPk cePk sePk A B Cs),
        ⟨[], ClientHello.new C cePk net ++ ClientAuth.new C cSk cPk sPk net A B,
         false, false, clientSuccessTrace⟩),
       (Except.ok (serverOutcome C net cPk sPk cePk sePk A B Cs),
        ⟨[], ServerHello.new C sePk net ++
           ServerAccept.new C sSk cPk net (C.sign cSk (net ++ sPk ++ C.sha256 A)) A B Cs,
         false, false, serverSuccessTrace⟩)) := by
  obtain ⟨p, hp1, hp2⟩ := G.dh_B_client
  obtain ⟨r, hr1, hr2⟩ := G.dh_B_server
  obtain ⟨q, hq1, hq2⟩ := G.dh_C_client
  obtain ⟨t, ht1, ht2⟩ := G.dh_C_server
  have e1 : (client C net cPk cSk sPk cePk ceSk (initState [] false)).2.out
      = ClientHello.new C cePk net := by
    rw [client_wrapper_err
      (client_short_eval C net cPk cSk sPk cePk ceSk [] false G.auth_len G.cePk_len (by simp))]
  have e2 : (server C net sPk sSk sePk seSk
      (initState (ClientHello.new C cePk net) false)).2.out = ServerHello.new C sePk net := by
    have h := server_mid_eval C net sPk sSk cePk sePk seSk A B [] false
      G.auth_len G.cePk_len G.sePk_len G.dh_eph_server r hr1 hr2 (by simp)
    rw [List.append_nil] at h
    rw [server_wrapper_err h]
  have e3 : (client C net cPk cSk sPk cePk ceSk
      (initState (ServerHello.new C sePk net) false)).2.out
      = ClientHello.new C cePk net ++ ClientAuth.new C cSk cPk sPk net A B := by
    have h := client_mid_eval C net cPk cSk sPk cePk ceSk sePk A B Cs [] false
      G.auth_len G.sign_len G.seal_len G.cePk_len G.sePk_len G.cPk_len
      G.dh_eph_client p hp1 hp2 q hq1 hq2 (by simp)
    rw [List.append_nil] at h
    rw [client_wrapper_err h]
  have e4 : server C net sPk sSk sePk seSk
      (initState (ClientHello.new C cePk net ++ ClientAuth.new C cSk cPk sPk net A B) false)
      = (Except.ok (serverOutcome C net cPk sPk cePk sePk A B Cs),
         ⟨[], ServerHello.new C sePk net ++
            ServerAccept.new C sSk cPk net (C.sign cSk (net ++ sPk ++ C.sha256 A)) A B Cs,
          false, false, serverSuccessTrace⟩) := by
    have h := server_full_eval C net cPk cSk sPk sSk cePk sePk seSk A B Cs [] false
      G.auth_len G.sign_len G.seal_len G.cePk_len G.sePk_len G.cPk_len
      G.dh_eph_server r hr1 hr2 t ht1 ht2 G.sbox_roundtrip G.verify_client_sig
    rw [List.append_nil] at h
    simpa [serverOutcome] using server_wrapper_ok h
  have e5 : client C net cPk cSk sPk cePk ceSk
      (initState (ServerHello.new C sePk net ++
        ServerAccept.new C sSk cPk net (C.sign cSk (net ++ sPk ++ C.sha256 A)) A B Cs) false)
      = (Except.ok (clientOutcome C net cPk sPk cePk sePk A B Cs),
         ⟨[], ClientHello.new C cePk net ++ ClientAuth.new C cSk cPk sPk net A B,
          false, false, clientSuccessTrace⟩) := by
    have h := client_full_eval C net cPk cSk sPk sSk cePk ceSk sePk A B Cs [] false
      G.auth_len G.sign_len G.seal_len G.cePk_len G.sePk_len G.cPk_len
      G.dh_eph_client p hp1 hp2 q hq1 hq2 G.sbox_roundtrip G.verify_server_sig
    rw [List.append_nil] at h
    simpa [clientOutcome] using client_wrapper_ok h
  unfold pairedRun
  simp only [e1, e2, e3, e4, e5]

theorem pairedRun_bad (C : Crypto) (net cPk cSk badPk sPk sSk cePk ceSk sePk seSk A B Cs Bbad pb : Bytes)
    (G : GoodRun C net cPk cSk sPk sSk cePk ceSk sePk seSk A B Cs)
    (hpb1 : C.pk_to_curve badPk = some pb) (hpb2 : C.dh ceSk pb = some Bbad)
    (hnone : C.sbox_open (K1 C net A B) (ClientAuth.new C cSk cPk badPk net A Bbad) = none) :
    pairedRun C net cPk cSk badPk sPk sSk cePk ceSk sePk seSk =
      ((Except.error HandshakeError.TransportError,
        ⟨[], ClientHello.new C cePk net ++ ClientAuth.new C cSk cPk badPk net A Bbad,
         true, false,
         [Event.genEph, Event.writeBytes 64, Event.flush, Event.readBytes 64,
          Event.verifyHello, Event.deriveA, Event.deriveB, Event.deriveC,
          Event.writeBytes 112, Event.flush, Event.readBytes 80, Event.close]⟩),
       (Except.error HandshakeError.ClientAuthFailure,
        ⟨[], ServerHello.new C sePk net, true, false,
         [Event.genEph, Event.readBytes 64, Event.verifyHello, Event.writeBytes 64,
          Event.flush, Event.deriveA, Event.deriveB, Event.readBytes 112,
          Event.openAuth, Event.close]⟩)) := by
  obtain ⟨r, hr1, hr2⟩ := G.dh_B_server
  obtain ⟨q, hq1, hq2⟩ := G.dh_C_client
  have e1 : (client C net cPk cSk badPk cePk ceSk (initState [] false)).2.out
      = ClientHello.new C cePk net := by
    rw [client_wrapper_err
      (client_short_eval C net cPk cSk badPk cePk ceSk [] false G.auth_len G.cePk_len (by simp))]
  have e2 : (server C net sPk sSk sePk seSk
      (initState (ClientHello.new C cePk net) false)).2.out = ServerHello.new C sePk net := by
    have h := server_mid_eval C net sPk sSk cePk sePk seSk A B [] false
      G.auth_len G.cePk_len G.sePk_len G.dh_eph_server r hr1 hr2 (by simp)
    rw [List.append_nil] at h
    rw [server_wrapper_err h]
  have e5 : client C net cPk cSk badPk cePk ceSk
      (initState (ServerHello.new C sePk net) false)
      = (Except.error HandshakeError.TransportError,
         ⟨[], ClientHello.new C cePk net ++ ClientAuth.new C cSk cPk badPk net A Bbad,
          true, false,
          [Event.genEph, Event.writeBytes 64, Event.flush, Event.readBytes 64,
           Event.verifyHello, Event.deriveA, Event.deriveB, Event.deriveC,
           Event.writeBytes 112, Event.flush, Event.readBytes 80, Event.close]⟩) := by
    have h := client_mid_eval C net cPk cSk badPk cePk ceSk sePk A Bbad Cs [] false
      G.auth_len G.sign_len G.seal_len G.cePk_len G.sePk_len G.cPk_len
      G.dh_eph_client pb hpb1 hpb2 q hq1 hq2 (by simp)
    rw [List.append_nil] at h
    simpa using client_wrapper_err h
  have e4 : server C net sPk sSk sePk seSk
      (initState (ClientHello.new C cePk net ++ ClientAuth.new C cSk cPk badPk net A Bbad) false)
      = (Except.error HandshakeError.ClientAuthFailure,
         ⟨[], ServerHello.new C sePk net, true, false,
          [Event.genEph, Event.readBytes 64, Event.verifyHello, Event.writeBytes 64,
           Event.flush, Event.deriveA, Event.deriveB, Event.readBytes 112,
           Event.openAuth, Event.close]⟩) := by
    have h := server_badauth_eval C net cPk cSk badPk sPk sSk cePk sePk seSk A B Bbad [] false
      G.auth_len G.sign_len G.seal_len G.cePk_len G.sePk_len G.cPk_len
      G.dh_eph_server r hr1 hr2 (by simpa [K1] using hnone)
    rw [List.append_nil] at h
    simpa using server_wrapper_err h
  have e3 : (client C net cPk cSk badPk cePk ceSk
      (initState (ServerHello.new C sePk net) false)).2.out
      = ClientHello.new C cePk net ++ ClientAuth.new C cSk cPk badPk net A Bbad := by
    rw [e5]
  unfold pairedRun
  simp only [e1, e2, e3, e4, e5]

theorem toy_auth_len : ∀ k m, (toy.auth k m).length = 32 := by
  intro k m
  simp [toy]

theorem toy_sign_len : ∀ k m, (toy.sign k m).length = 64 := by
  intro k m
  simp [toy]

theorem toy_seal_len : ∀ k m, (toy.sbox_seal k m).length = m.length + 16 := by
  intro k m
  show (List.replicate 16 (hashOf (k ++ 5 :: m)) ++ m).length = m.length + 16
  simp

theorem toy_sbox_roundtrip : ∀ k m, toy.sbox_open k (toy.sbox_seal k m) = some m := by
  intro k m
  have h : (List.replicate 16 (hashOf (k ++ 5 :: m))).length = 16 := by simp
  simp [toy, List.take_left' h, List.drop_left' h]

set_option maxRecDepth 8000 in
theorem toyGood : GoodRun toy tNet tCPk tCPk tSPk tSPk tCePk tCePk tSePk tSePk tA tB tCs := by
  refine ⟨toy_auth_len, toy_sign_len, toy_seal_len, by decide, by decide, by decide,
    by decide, by decide, ⟨tSPk, by decide, by decide⟩, ⟨tSPk, by decide, by decide⟩,
    ⟨tCPk, by decide, by decide⟩, ⟨tCPk, by decide, by decide⟩,
    toy_sbox_roundtrip, by decide, by decide⟩

/-- C1: for all valid long-term key pairs on both sides and any NetworkId
(validity and honest primitives captured by `GoodRun`), the client and
server run against each other over a reliable duplex stream (the
deterministic paired run) both succeed, and the two HandshakeOutcomes
satisfy client.write_key = server.read_key and client.read_key =
server.write_key; both sides consume their entire input, so each side read
exactly what the peer wrote. -/
theorem C1_paired_run_success (C : Crypto)
    (net cPk cSk sPk sSk cePk ceSk sePk seSk A B Cs : Bytes)
    (G : GoodRun C net cPk cSk sPk sSk cePk ceSk sePk seSk A B Cs) :
    (pairedRun C net cPk cSk sPk sPk sSk cePk ceSk sePk seSk).1.1
      = Except.ok (clientOutcome C net cPk sPk cePk sePk A B Cs) ∧
    (pairedRun C net cPk cSk sPk sPk sSk cePk ceSk sePk seSk).2.1
      = Except.ok (serverOutcome C net cPk sPk cePk sePk A B Cs) ∧
    (clientOutcome C net cPk sPk cePk sePk A B Cs).write_key
      = (serverOutcome C net cPk sPk cePk sePk A B Cs).read_key ∧
    (clientOutcome C net cPk sPk cePk sePk A B Cs).read_key
      = (serverOutcome C net cPk sPk cePk sePk A B Cs).write_key ∧
    (pairedRun C net cPk cSk sPk sPk sSk cePk ceSk sePk seSk).1.2.inp = [] ∧
    (pairedRun C net cPk cSk sPk sPk sSk cePk ceSk sePk seSk).2.2.inp = [] := by
  have h := pairedRun_happy C net cPk cSk sPk sSk cePk ceSk sePk seSk A B Cs G
  refine ⟨by rw [h], by rw [h], by simp [clientOutcome, serverOutcome],
    by simp [clientOutcome, serverOutcome], by rw [h], by rw [h]⟩

/-- Witness for C1 at the concrete test instantiation. -/
theorem C1_paired_run_success_witness :
    GoodRun toy tNet tCPk tCPk tSPk tSPk tCePk tCePk tSePk tSePk tA tB tCs ∧
    ((pairedRun toy tNet tCPk tCPk tSPk tSPk tSPk tCePk tCePk tSePk tSePk).1.1
      = Except.ok (clientOutcome toy tNet tCPk tSPk tCePk tSePk tA tB tCs) ∧
    (pairedRun toy tNet tCPk tCPk tSPk tSPk tSPk tCePk tCePk tSePk tSePk).2.1
      = Except.ok (serverOutcome toy tNet tCPk tSPk tCePk tSePk tA tB tCs) ∧
    (clientOutcome toy tNet tCPk tSPk tCePk tSePk tA tB tCs).write_key
      = (serverOutcome toy tNet tCPk tSPk tCePk tSePk tA tB tCs).read_key ∧
    (clientOutcome toy tNet tCPk tSPk tCePk tSePk tA tB tCs).read_key
      = (serverOutcome toy tNet tCPk tSPk tCePk tSePk tA tB tCs).write_key ∧
    (pairedRun toy tNet tCPk tCPk tSPk tSPk tSPk tCePk tCePk tSePk tSePk).1.2.inp = [] ∧
    (pairedRun toy tNet tCPk tCPk tSPk tSPk tSPk tCePk tCePk tSePk tSePk).2.2.inp = []) :=
  ⟨toyGood,
   C1_paired_run_success toy tNet tCPk tCPk tSPk tSPk tCePk tCePk tSePk tSePk tA tB tCs toyGood⟩

/-- C2: on success the client's write key is client_to_server_key =
sha256(H_s ++ server_longterm_pk) and its read key is server_to_client_key
= sha256(H_s ++ client_longterm_pk), with H_s = sha256(sha256(NetworkId ++
SharedA ++ SharedB ++ SharedC)); symmetrically the server's read key is the
former (computed with its own public key) and its write key the latter
(computed with the client key extracted from ClientAuth). -/
theorem C2_session_key_derivation (C : Crypto)
    (net cPk cSk sPk sSk cePk ceSk sePk seSk A B Cs : Bytes)
    (G : GoodRun C net cPk cSk sPk sSk cePk ceSk sePk seSk A B Cs) :
    ∀ co so,
      (pairedRun C net cPk cSk sPk sPk sSk cePk ceSk sePk seSk).1.1 = Except.ok co →
      (pairedRun C net cPk cSk sPk sPk sSk cePk ceSk sePk seSk).2.1 = Except.ok so →
      co.write_key = C.sha256 (C.sha256 (C.sha256 (net ++ A ++ B ++ Cs)) ++ sPk) ∧
      co.read_key = C.sha256 (C.sha256 (C.sha256 (net ++ A ++ B ++ Cs)) ++ cPk) ∧
      so.read_key = C.sha256 (C.sha256 (C.sha256 (net ++ A ++ B ++ Cs)) ++ sPk) ∧
      so.write_key = C.sha256 (C.sha256 (C.sha256 (net ++ A ++ B ++ Cs)) ++ cPk) := by
  intro co so h1 h2
  rw [pairedRun_happy C net cPk cSk sPk sSk cePk ceSk sePk seSk A B Cs G] at h1 h2
  simp only [Except.ok.injEq] at h1 h2
  subst h1
  subst h2
  simp [clientOutcome, serverOutcome, client_to_server_key, server_to_client_key]

/-- Witness for C2 at the concrete test instantiation. -/
theorem C2_session_key_derivation_witness :
    GoodRun toy tNet tCPk tCPk tSPk tSPk tCePk tCePk tSePk tSePk tA tB tCs ∧
    ((clientOutcome toy tNet tCPk tSPk tCePk tSePk tA tB tCs).write_key
      = toy.sha256 (toy.sha256 (toy.sha256 (tNet ++ tA ++ tB ++ tCs)) ++ tSPk) ∧
    (clientOutcome toy tNet tCPk tSPk tCePk tSePk tA tB tCs).read_key
      = toy.sha256 (toy.sha256 (toy.sha256 (tNet ++ tA ++ tB ++ tCs)) ++ tCPk) ∧
    (serverOutcome toy tNet tCPk tSPk tCePk tSePk tA tB tCs).read_key
      = toy.sha256 (toy.sha256 (toy.sha256 (tNet ++ tA ++ tB ++ tCs)) ++ tSPk) ∧
    (serverOutcome toy tNet tCPk tSPk tCePk tSePk tA tB tCs).write_key
      = toy.sha256 (toy.sha256 (toy.sha256 (tNet ++ tA ++ tB ++ tCs)) ++ tCPk)) :=
  ⟨toyGood,
   C2_session_key_derivation toy tNet tCPk tCPk tSPk tSPk tCePk tCePk tSePk tSePk tA tB tCs
     toyGood (clientOutcome toy tNet tCPk tSPk tCePk tSePk tA tB tCs)
     (serverOutcome toy tNet tCPk tSPk tCePk tSePk tA tB tCs)
     (by rw [pairedRun_happy toy tNet tCPk tCPk tSPk tSPk tCePk tCePk tSePk tSePk tA tB tCs toyGood])
     (by rw [pairedRun_happy toy tNet tCPk tCPk tSPk tSPk tCePk tCePk tSePk tSePk tA tB tCs toyGood])⟩

/-- C3: in a successful paired run each side's write nonce generator is
seeded from the peer's ephemeral public key and its read nonce generator
from its own ephemeral public key, so the first nonces agree pairwise:
client.write_noncegen.next() = server.read_noncegen.next() and
client.read_noncegen.next() = server.write_noncegen.next(). -/
theorem C3_noncegen_agreement (C : Crypto)
    (net cPk cSk sPk sSk cePk ceSk sePk seSk A B Cs : Bytes)
    (G : GoodRun C net cPk cSk sPk sSk cePk ceSk sePk seSk A B Cs) :
    ∀ co so,
      (pairedRun C net cPk cSk sPk sPk sSk cePk ceSk sePk seSk).1.1 = Except.ok co →
      (pairedRun C net cPk cSk sPk sPk sSk cePk ceSk sePk seSk).2.1 = Except.ok so →
      co.write_noncegen = NonceGen.new C sePk net ∧
      co.read_noncegen = NonceGen.new C cePk net ∧
      so.write_noncegen = NonceGen.new C cePk net ∧
      so.read_noncegen = NonceGen.new C sePk net ∧
      (co.write_noncegen.next).1 = (so.read_noncegen.next).1 ∧
      (co.read_noncegen.next).1 = (so.write_noncegen.next).1 := by
  intro co so h1 h2
  rw [pairedRun_happy C net cPk cSk sPk sSk cePk ceSk sePk seSk A B Cs G] at h1 h2
  simp only [Except.ok.injEq] at h1 h2
  subst h1
  subst h2
  simp [clientOutcome, serverOutcome]

/-- Witness for C3 at the concrete test instantiation. -/
theorem C3_noncegen_agreement_witness :
    GoodRun toy tNet tCPk tCPk tSPk tSPk tCePk tCePk tSePk tSePk tA tB tCs ∧
    ((clientOutcome toy tNet tCPk tSPk tCePk tSePk tA tB tCs).write_noncegen
      = NonceGen.new toy tSePk tNet ∧
    (clientOutcome toy tNet tCPk tSPk tCePk tSePk tA tB tCs).read_noncegen
      = NonceGen.new toy tCePk tNet ∧
    (serverOutcome toy tNet tCPk tSPk tCePk tSePk tA tB tCs).write_noncegen
      = NonceGen.new toy tCePk tNet ∧
    (serverOutcome toy tNet tCPk tSPk tCePk tSePk tA tB tCs).read_noncegen
      = NonceGen.new toy tSePk tNet ∧
    ((clientOutcome toy tNet tCPk tSPk tCePk tSePk tA tB tCs).write_noncegen.next).1
      = ((serverOutcome toy tNet tCPk tSPk tCePk tSePk tA tB tCs).read_noncegen.next).1 ∧
    ((clientOutcome toy tNet tCPk tSPk tCePk tSePk tA tB tCs).read_noncegen.next).1
      = ((serverOutcome toy tNet tCPk tSPk tCePk tSePk tA tB tCs).write_noncegen.next).1) :=
  ⟨toyGood,
   C3_noncegen_agreement toy tNet tCPk tCPk tSPk tSPk tCePk tCePk tSePk tSePk tA tB tCs
     toyGood (clientOutcome toy tNet tCPk tSPk tCePk tSePk tA tB tCs)
     (serverOutcome toy tNet tCPk tSPk tCePk tSePk tA tB tCs)
     (by rw [pairedRun_happy toy tNet tCPk tCPk tSPk tSPk tCePk tCePk tSePk tSePk tA tB tCs toyGood])
     (by rw [pairedRun_happy toy tNet tCPk tCPk tSPk tSPk tCePk tCePk tSePk tSePk tA tB tCs toyGood])⟩

set_option maxRecDepth 16000 in
/-- Counterexample to C4 as stated: at a concrete wrong-but-valid server
public key, the client handshake fails with TransportError (the server
aborts after ClientAuth and closes, so the client hits end-of-stream while
reading ServerAccept), not with ServerAcceptFailure and not with
KeyConversionFailure. -/
theorem C4_counterexample :
    tBadPk ≠ tSPk ∧
    (pairedRun toy tNet tCPk tCPk tBadPk tSPk tSPk tCePk tCePk tSePk tSePk).1.1
      = Except.error HandshakeError.TransportError ∧
    (pairedRun toy tNet tCPk tCPk tBadPk tSPk tSPk tCePk tCePk tSePk tSePk).1.1
      ≠ Except.error HandshakeError.ServerAcceptFailure ∧
    (pairedRun toy tNet tCPk tCPk tBadPk tSPk tSPk tCePk tCePk tSePk tSePk).1.1
      ≠ Except.error HandshakeError.KeyConversionFailure := by
  have h := pairedRun_bad toy tNet tCPk tCPk tBadPk tSPk tSPk tCePk tCePk tSePk tSePk
    tA tB tCs tBbad tBadPk toyGood (by decide) (by decide) (by decide)
  refine ⟨by decide, by rw [h], by rw [h]; simp, by rw [h]; simp⟩

/-- C4 (amended): for a bad server public key handed to the client that is
a valid curve point but makes the client's SharedB differ from the
server's (so the server cannot open ClientAuth), the server handshake
fails with ClientAuthFailure and closes; the client, whose ClientAuth was
built for the bad key, then fails with TransportError reading the
ServerAccept that never arrives.  Neither side produces a
HandshakeOutcome. -/
theorem C4_amended_bad_server_pk (C : Crypto)
    (net cPk cSk badPk sPk sSk cePk ceSk sePk seSk A B Cs Bbad pb : Bytes)
    (G : GoodRun C net cPk cSk sPk sSk cePk ceSk sePk seSk A B Cs)
    (hbad : badPk ≠ sPk)
    (hpb1 : C.pk_to_curve badPk = some pb) (hpb2 : C.dh ceSk pb = some Bbad)
    (hnone : C.sbox_open (K1 C net A B) (ClientAuth.new C cSk cPk badPk net A Bbad) = none) :
    (pairedRun C net cPk cSk badPk sPk sSk cePk ceSk sePk seSk).1.1
      = Except.error HandshakeError.TransportError ∧
    (pairedRun C net cPk cSk badPk sPk sSk cePk ceSk sePk seSk).2.1
      = Except.error HandshakeError.ClientAuthFailure ∧
    (∀ o, (pairedRun C net cPk cSk badPk sPk sSk cePk ceSk sePk seSk).1.1 ≠ Except.ok o) ∧
    (∀ o, (pairedRun C net cPk cSk badPk sPk sSk cePk ceSk sePk seSk).2.1 ≠ Except.ok o) := by
  have h := pairedRun_bad C net cPk cSk badPk sPk sSk cePk ceSk sePk seSk
    A B Cs Bbad pb G hpb1 hpb2 hnone
  refine ⟨by rw [h], by rw [h], ?_, ?_⟩
  · intro o
    rw [h]
    simp
  · intro o
    rw [h]
    simp

set_option maxRecDepth 16000 in
/-- Witness for the amended C4 at the concrete test instantiation. -/
theorem C4_amended_bad_server_pk_witness :
    GoodRun toy tNet tCPk tCPk tSPk tSPk tCePk tCePk tSePk tSePk tA tB tCs ∧
    tBadPk ≠ tSPk ∧
    toy.pk_to_curve tBadPk = some tBadPk ∧
    toy.dh tCePk tBadPk = some tBbad ∧
    toy.sbox_open (K1 toy tNet tA tB) (ClientAuth.new toy tCPk tCPk tBadPk tNet tA tBbad) = none ∧
    ((pairedRun toy tNet tCPk tCPk tBadPk tSPk tSPk tCePk tCePk tSePk tSePk).1.1
      = Except.error HandshakeError.TransportError ∧
    (pairedRun toy tNet tCPk tCPk tBadPk tSPk tSPk tCePk tCePk tSePk tSePk).2.1
      = Except.error HandshakeError.ClientAuthFailure ∧
    (∀ o, (pairedRun toy tNet tCPk tCPk tBadPk tSPk tSPk tCePk tCePk tSePk tSePk).1.1
      ≠ Except.ok o) ∧
    (∀ o, (pairedRun toy tNet tCPk tCPk tBadPk tSPk tSPk tCePk tCePk tSePk tSePk).2.1
      ≠ Except.ok o)) :=
  ⟨toyGood, by decide, by decide, by decide, by decide,
   C4_amended_bad_server_pk toy tNet tCPk tCPk tBadPk tSPk tSPk tCePk tCePk tSePk tSePk
     tA tB tCs tBbad tBadPk toyGood (by decide) (by decide) (by decide) (by decide)⟩

/-- C5: the client driver performs exactly this sequence of steps in order:
generate an ephemeral keypair; write ClientHello(64) and flush; read a
64-byte frame and verify the ServerHello MAC; derive SharedA, SharedB,
SharedC; write ClientAuth(112) and flush; read an 80-byte frame and
open-and-verify ServerAccept; derive the session output.  On every input
the performed trace is a prefix of this sequence, the run succeeds exactly
when the whole sequence completes, and any step's failure returns a
HandshakeError (the terminal Failure state). -/
theorem C5_client_step_sequence (C : Crypto) (net pk sk spk cePk ceSk inp : Bytes) (cerr : Bool)
    (hauth : ∀ k m, (C.auth k m).length = 32)
    (hsig : ∀ k m, (C.sign k m).length = 64)
    (hseal : ∀ k m, (C.sbox_seal k m).length = m.length + 16)
    (hce : cePk.length = 32) (hcp : pk.length = 32) :
    (∃ n, (attempt_client_side C net pk sk spk cePk ceSk (initState inp cerr)).2.trace
        = clientSuccessTrace.take n) ∧
    ((∃ o, (attempt_client_side C net pk sk spk cePk ceSk (initState inp cerr)).1
        = Except.ok o) ↔
      (attempt_client_side C net pk sk spk cePk ceSk (initState inp cerr)).2.trace
        = clientSuccessTrace) ∧
    ((∀ o, (attempt_client_side C net pk sk spk cePk ceSk (initState inp cerr)).1
        ≠ Except.ok o) →
      ∃ e, (attempt_client_side C net pk sk spk cePk ceSk (initState inp cerr)).1
        = Except.error e) := by
  obtain ⟨h1, h2⟩ := attempt_client_prefix C net pk sk spk cePk ceSk inp cerr
    hauth hsig hseal hce hcp
  refine ⟨h1, h2, ?_⟩
  intro h
  cases hres : (attempt_client_side C net pk sk spk cePk ceSk (initState inp cerr)).1 with
  | ok o => exact absurd hres (h o)
  | error e => exact ⟨e, rfl⟩

/-- Witness for C5 at the concrete test instantiation (empty input: the
run stops at the first read with a transport error). -/
theorem C5_client_step_sequence_witness :
    (∀ k m, (toy.auth k m).length = 32) ∧
    (∀ k m, (toy.sign k m).length = 64) ∧
    (∀ k m, (toy.sbox_seal k m).length = m.length + 16) ∧
    tCePk.length = 32 ∧ tCPk.length = 32 ∧
    ((∃ n, (attempt_client_side toy tNet tCPk tCPk tSPk tCePk tCePk (initState [] false)).2.trace
        = clientSuccessTrace.take n) ∧
    ((∃ o, (attempt_client_side toy tNet tCPk tCPk tSPk tCePk tCePk (initState [] false)).1
        = Except.ok o) ↔
      (attempt_client_side toy tNet tCPk tCPk tSPk tCePk tCePk (initState [] false)).2.trace
        = clientSuccessTrace) ∧
    ((∀ o, (attempt_client_side toy tNet tCPk tCPk tSPk tCePk tCePk (initState [] false)).1
        ≠ Except.ok o) →
      ∃ e, (attempt_client_side toy tNet tCPk tCPk tSPk tCePk tCePk (initState [] false)).1
        = Except.error e)) :=
  ⟨toy_auth_len, toy_sign_len, toy_seal_len, by decide, by decide,
   C5_client_step_sequence toy tNet tCPk tCPk tSPk tCePk tCePk [] false
     toy_auth_len toy_sign_len toy_seal_len (by decide) (by decide)⟩

/-- C6: the server driver performs exactly this sequence of steps in order:
generate an ephemeral keypair; read 64 bytes and verify the ClientHello
MAC; write ServerHello(64) and flush; derive SharedA and SharedB; read 112
bytes and open-and-verify ClientAuth; derive SharedC from the server
ephemeral secret and the extracted client long-term key; write
ServerAccept(80) and flush; derive the session output.  On every input the
performed trace is a prefix of this sequence and the run succeeds exactly
when the whole sequence completes. -/
theorem C6_server_step_sequence (C : Crypto) (net pk sk sePk seSk inp : Bytes) (cerr : Bool)
    (hauth : ∀ k m, (C.auth k m).length = 32)
    (hsig : ∀ k m, (C.sign k m).length = 64)
    (hseal : ∀ k m, (C.sbox_seal k m).length = m.length + 16)
    (hse : sePk.length = 32) :
    (∃ n, (attempt_server_side C net pk sk sePk seSk (initState inp cerr)).2.trace
        = serverSuccessTrace.take n) ∧
    ((∃ o, (attempt_server_side C net pk sk sePk seSk (initState inp cerr)).1
        = Except.ok o) ↔
      (attempt_server_side C net pk sk sePk seSk (initState inp cerr)).2.trace
        = serverSuccessTrace) ∧
    ((∀ o, (attempt_server_side C net pk sk sePk seSk (initState inp cerr)).1
        ≠ Except.ok o) →
      ∃ e, (attempt_server_side C net pk sk sePk seSk (initState inp cerr)).1
        = Except.error e) := by
  obtain ⟨h1, h2⟩ := attempt_server_prefix C net pk sk sePk seSk inp cerr
    hauth hsig hseal hse
  refine ⟨h1, h2, ?_⟩
  intro h
  cases hres : (attempt_server_side C net pk sk sePk seSk (initState inp cerr)).1 with
  | ok o => exact absurd hres (h o)
  | error e => exact ⟨e, rfl⟩

/-- Witness for C6 at the concrete test instantiation (empty input). -/
theorem C6_server_step_sequence_witness :
    (∀ k m, (toy.auth k m).length = 32) ∧
    (∀ k m, (toy.sign k m).length = 64) ∧
    (∀ k m, (toy.sbox_seal k m).length = m.length + 16) ∧
    tSePk.length = 32 ∧
    ((∃ n, (attempt_server_side toy tNet tSPk tSPk tSePk tSePk (initState [] false)).2.trace
        = serverSuccessTrace.take n) ∧
    ((∃ o, (attempt_server_side toy tNet tSPk tSPk tSePk tSePk (initState [] false)).1
        = Except.ok o) ↔
      (attempt_server_side toy tNet tSPk tSPk tSePk tSePk (initState [] false)).2.trace
        = serverSuccessTrace) ∧
    ((∀ o, (attempt_server_side toy tNet tSPk tSPk tSePk tSePk (initState [] false)).1
        ≠ Except.ok o) →
      ∃ e, (attempt_server_side toy tNet tSPk tSPk tSePk tSePk (initState [] false)).1
        = Except.error e)) :=
  ⟨toy_auth_len, toy_sign_len, toy_seal_len, by decide,
   C6_server_step_sequence toy tNet tSPk tSPk tSePk tSePk [] false
     toy_auth_len toy_sign_len toy_seal_len (by decide)⟩

/-- C7: every run of the public client or server operation that returns an
error has closed the stream before returning (the closed flag is set and
the close event is in the trace), and a failure of the close itself (the
closeErr flag, quantified over both values) is swallowed: the result of
the public operation is always exactly the result of the attempt, so the
original error reaches the caller. -/
theorem C7_close_on_error_swallowed (C : Crypto)
    (net pk sk spk cePk ceSk net2 pk2 sk2 sePk seSk inp inp2 : Bytes) (cerr cerr2 : Bool) :
    (client C net pk sk spk cePk ceSk (initState inp cerr)).1
      = (attempt_client_side C net pk sk spk cePk ceSk (initState inp cerr)).1 ∧
    (Except.isOk (client C net pk sk spk cePk ceSk (initState inp cerr)).1
      || (client C net pk sk spk cePk ceSk (initState inp cerr)).2.closed) = true ∧
    (Except.isOk (client C net pk sk spk cePk ceSk (initState inp cerr)).1
      || decide (Event.close ∈ (client C net pk sk spk cePk ceSk (initState inp cerr)).2.trace))
      = true ∧
    (server C net2 pk2 sk2 sePk seSk (initState inp2 cerr2)).1
      = (attempt_server_side C net2 pk2 sk2 sePk seSk (initState inp2 cerr2)).1 ∧
    (Except.isOk (server C net2 pk2 sk2 sePk seSk (initState inp2 cerr2)).1
      || (server C net2 pk2 sk2 sePk seSk (initState inp2 cerr2)).2.closed) = true ∧
    (Except.isOk (server C net2 pk2 sk2 sePk seSk (initState inp2 cerr2)).1
      || decide (Event.close ∈ (server C net2 pk2 sk2 sePk seSk (initState inp2 cerr2)).2.trace))
      = true := by
  rcases hc : attempt_client_side C net pk sk spk cePk ceSk (initState inp cerr) with ⟨res, st⟩
  rcases hs : attempt_server_side C net2 pk2 sk2 sePk seSk (initState inp2 cerr2) with ⟨res2, st2⟩
  refine ⟨?_, ?_, ?_, ?_, ?_, ?_⟩
  · cases res with
    | ok o => simp [client_wrapper_ok hc, hc]
    | error e => simp [client_wrapper_err hc, hc]
  · cases res with
    | ok o =>
      simp [client_wrapper_ok hc, Except.isOk, Except.toBool]
    | error e =>
      simp [client_wrapper_err hc, Except.isOk, Except.toBool]
  · cases res with
    | ok o =>
      simp [client_wrapper_ok hc, Except.isOk, Except.toBool]
    | error e =>
      simp [client_wrapper_err hc, Except.isOk, Except.toBool]
  · cases res2 with
    | ok o => simp [server_wrapper_ok hs, hs]
    | error e => simp [server_wrapper_err hs, hs]
  · cases res2 with
    | ok o =>
      simp [server_wrapper_ok hs, Except.isOk, Except.toBool]
    | error e =>
      simp [server_wrapper_err hs, Except.isOk, Except.toBool]
  · cases res2 with
    | ok o =>
      simp [server_wrapper_ok hs, Except.isOk, Except.toBool]
    | error e =>
      simp [server_wrapper_err hs, Except.isOk, Except.toBool]

/-- C10: every run of the public client or server operation that returns a
HandshakeOutcome (success) never called close: the closed flag is still
clear and no close event is in the trace, so the caller receives the
stream still open for the post-handshake transport. -/
theorem C10_no_close_on_success (C : Crypto)
    (net pk sk spk cePk ceSk net2 pk2 sk2 sePk seSk inp inp2 : Bytes) (cerr cerr2 : Bool) :
    (Except.isOk (client C net pk sk spk cePk ceSk (initState inp cerr)).1
      && (client C net pk sk spk cePk ceSk (initState inp cerr)).2.closed) = false ∧
    (Except.isOk (client C net pk sk spk cePk ceSk (initState inp cerr)).1
      && decide (Event.close ∈ (client C net pk sk spk cePk ceSk (initState inp cerr)).2.trace))
      = false ∧
    (Except.isOk (server C net2 pk2 sk2 sePk seSk (initState inp2 cerr2)).1
      && (server C net2 pk2 sk2 sePk seSk (initState inp2 cerr2)).2.closed) = false ∧
    (Except.isOk (server C net2 pk2 sk2 sePk seSk (initState inp2 cerr2)).1
      && decide (Event.close ∈ (server C net2 pk2 sk2 sePk seSk (initState inp2 cerr2)).2.trace))
      = false := by
  have hcs := attempt_client_state C net pk sk spk cePk ceSk inp cerr
  have hss := attempt_server_state C net2 pk2 sk2 sePk seSk inp2 cerr2
  rcases hc : attempt_client_side C net pk sk spk cePk ceSk (initState inp cerr) with ⟨res, st⟩
  rcases hs : attempt_server_side C net2 pk2 sk2 sePk seSk (initState inp2 cerr2) with ⟨res2, st2⟩
  rw [hc] at hcs
  rw [hs] at hss
  refine ⟨?_, ?_, ?_, ?_⟩
  · cases res with
    | ok o =>
      rw [client_wrapper_ok hc]
      simp_all
    | error e =>
      simp [client_wrapper_err hc, Except.isOk, Except.toBool]
  · cases res with
    | ok o =>
      rw [client_wrapper_ok hc]
      simp_all
    | error e =>
      simp [client_wrapper_err hc, Except.isOk, Except.toBool]
  · cases res2 with
    | ok o =>
      rw [server_wrapper_ok hs]
      simp_all
    | error e =>
      simp [server_wrapper_err hs, Except.isOk, Except.toBool]
  · cases res2 with
    | ok o =>
      rw [server_wrapper_ok hs]
      simp_all
    | error e =>
      simp [server_wrapper_err hs, Except.isOk, Except.toBool]

/-- C8: if the peer delivers fewer bytes than the fixed frame length and
then closes (any wire message truncated by even one byte), the receiving
side fails with a TransportError and no cryptographic verification of that
frame is attempted (no verify or open event for it enters the trace).
Stated for all four frames: ServerHello and ServerAccept on the client
side, ClientHello and ClientAuth on the server side. -/
theorem C8_truncated_frame_transport_error (C : Crypto)
    (net cPk cSk sPk sSk cePk ceSk sePk seSk A B Cs : Bytes) (cerr : Bool)
    (G : GoodRun C net cPk cSk sPk sSk cePk ceSk sePk seSk A B Cs) :
    (∀ pre, pre.length < 64 →
      (client C net cPk cSk sPk cePk ceSk (initState pre cerr)).1
        = Except.error HandshakeError.TransportError ∧
      Event.verifyHello ∉ (client C net cPk cSk sPk cePk ceSk (initState pre cerr)).2.trace ∧
      Event.openAccept ∉ (client C net cPk cSk sPk cePk ceSk (initState pre cerr)).2.trace) ∧
    (∀ pre, pre.length < 80 →
      (client C net cPk cSk sPk cePk ceSk
        (initState (ServerHello.new C sePk net ++ pre) cerr)).1
        = Except.error HandshakeError.TransportError ∧
      Event.openAccept ∉ (client C net cPk cSk sPk cePk ceSk
        (initState (ServerHello.new C sePk net ++ pre) cerr)).2.trace) ∧
    (∀ pre, pre.length < 64 →
      (server C net sPk sSk sePk seSk (initState pre cerr)).1
        = Except.error HandshakeError.TransportError ∧
      Event.verifyHello ∉ (server C net sPk sSk sePk seSk (initState pre cerr)).2.trace ∧
      Event.openAuth ∉ (server C net sPk sSk sePk seSk (initState pre cerr)).2.trace) ∧
    (∀ pre, pre.length < 112 →
      (server C net sPk sSk sePk seSk
        (initState (ClientHello.new C cePk net ++ pre) cerr)).1
        = Except.error HandshakeError.TransportError ∧
      Event.openAuth ∉ (server C net sPk sSk sePk seSk
        (initState (ClientHello.new C cePk net ++ pre) cerr)).2.trace) := by
  obtain ⟨p, hp1, hp2⟩ := G.dh_B_client
  obtain ⟨q, hq1, hq2⟩ := G.dh_C_client
  obtain ⟨r, hr1, hr2⟩ := G.dh_B_server
  refine ⟨?_, ?_, ?_, ?_⟩
  · intro pre hpre
    rw [client_wrapper_err
      (client_short_eval C net cPk cSk sPk cePk ceSk pre cerr G.auth_len G.cePk_len hpre)]
    simp
  · intro pre hpre
    rw [client_wrapper_err
      (client_mid_eval C net cPk cSk sPk cePk ceSk sePk A B Cs pre cerr
        G.auth_len G.sign_len G.seal_len G.cePk_len G.sePk_len G.cPk_len
        G.dh_eph_client p hp1 hp2 q hq1 hq2 hpre)]
    simp
  · intro pre hpre
    rw [server_wrapper_err
      (server_short_eval C net sPk sSk sePk seSk pre cerr hpre)]
    simp
  · intro pre hpre
    rw [server_wrapper_err
      (server_mid_eval C net sPk sSk cePk sePk seSk A B pre cerr
        G.auth_len G.cePk_len G.sePk_len G.dh_eph_server r hr1 hr2 hpre)]
    simp

set_option maxRecDepth 16000 in
/-- Witness for C8 at the concrete test instantiation, with each frame
truncated to the empty byte string. -/
theorem C8_truncated_frame_transport_error_witness :
    GoodRun toy tNet tCPk tCPk tSPk tSPk tCePk tCePk tSePk tSePk tA tB tCs ∧
    ((client toy tNet tCPk tCPk tSPk tCePk tCePk (initState [] false)).1
      = Except.error HandshakeError.TransportError ∧
    Event.verifyHello ∉ (client toy tNet tCPk tCPk tSPk tCePk tCePk (initState [] false)).2.trace ∧
    Event.openAccept ∉ (client toy tNet tCPk tCPk tSPk tCePk tCePk (initState [] false)).2.trace) ∧
    ((client toy tNet tCPk tCPk tSPk tCePk tCePk
      (initState (ServerHello.new toy tSePk tNet ++ []) false)).1
      = Except.error HandshakeError.TransportError ∧
    Event.openAccept ∉ (client toy tNet tCPk tCPk tSPk tCePk tCePk
      (initState (ServerHello.new toy tSePk tNet ++ []) false)).2.trace) ∧
    ((server toy tNet tSPk tSPk tSePk tSePk (initState [] false)).1
      = Except.error HandshakeError.TransportError ∧
    Event.verifyHello ∉ (server toy tNet tSPk tSPk tSePk tSePk (initState [] false)).2.trace ∧
    Event.openAuth ∉ (server toy tNet tSPk tSPk tSePk tSePk (initState [] false)).2.trace) ∧
    ((server toy tNet tSPk tSPk tSePk tSePk
      (initState (ClientHello.new toy tCePk tNet ++ []) false)).1
      = Except.error HandshakeError.TransportError ∧
    Event.openAuth ∉ (server toy tNet tSPk tSPk tSePk tSePk
      (initState (ClientHello.new toy tCePk tNet ++ []) false)).2.trace) := by
  obtain ⟨h1, h2, h3, h4⟩ := C8_truncated_frame_transport_error toy tNet tCPk tCPk tSPk tSPk
    tCePk tCePk tSePk tSePk tA tB tCs false toyGood
  exact ⟨toyGood, h1 [] (by decide), h2 [] (by decide), h3 [] (by decide), h4 [] (by decide)⟩

/-- C9: after successfully writing and flushing ServerAccept the server
performs no further reads and returns a successful HandshakeOutcome: on a
well-formed input the server succeeds leaving every continuation byte
unread, its result is the same whatever bytes follow (so it is independent
of whether the client accepts or rejects the ServerAccept), and in the
success trace no read event follows the ServerAccept write. -/
theorem C9_server_success_before_client_verdict (C : Crypto)
    (net cPk cSk sPk sSk cePk ceSk sePk seSk A B Cs : Bytes) (cerr : Bool)
    (G : GoodRun C net cPk cSk sPk sSk cePk ceSk sePk seSk A B Cs) :
    (∀ rest, (server C net sPk sSk sePk seSk
        (initState (ClientHello.new C cePk net ++
          (ClientAuth.new C cSk cPk sPk net A B ++ rest)) cerr)).1
      = Except.ok (serverOutcome C net cPk sPk cePk sePk A B Cs)) ∧
    (∀ rest, (server C net sPk sSk sePk seSk
        (initState (ClientHello.new C cePk net ++
          (ClientAuth.new C cSk cPk sPk net A B ++ rest)) cerr)).2.inp = rest) ∧
    (∀ rest, (server C net sPk sSk sePk seSk
        (initState (ClientHello.new C cePk net ++
          (ClientAuth.new C cSk cPk sPk net A B ++ rest)) cerr)).2.trace
      = serverSuccessTrace) ∧
    (∃ t1 t2, serverSuccessTrace = t1 ++ Event.writeBytes 80 :: t2 ∧
      ∀ n, Event.readBytes n ∉ t2) := by
  obtain ⟨r, hr1, hr2⟩ := G.dh_B_server
  obtain ⟨t, ht1, ht2⟩ := G.dh_C_server
  have key : ∀ rest : Bytes, server C net sPk sSk sePk seSk
      (initState (ClientHello.new C cePk net ++
        (ClientAuth.new C cSk cPk sPk net A B ++ rest)) cerr)
      = (Except.ok (serverOutcome C net cPk sPk cePk sePk A B Cs),
         ⟨rest, ServerHello.new C sePk net ++
            ServerAccept.new C sSk cPk net (C.sign cSk (net ++ sPk ++ C.sha256 A)) A B Cs,
          false, cerr, serverSuccessTrace⟩) := by
    intro rest
    have h := server_full_eval C net cPk cSk sPk sSk cePk sePk seSk A B Cs rest cerr
      G.auth_len G.sign_len G.seal_len G.cePk_len G.sePk_len G.cPk_len
      G.dh_eph_server r hr1 hr2 t ht1 ht2 G.sbox_roundtrip G.verify_client_sig
    simpa [serverOutcome] using server_wrapper_ok h
  refine ⟨fun rest => by rw [key rest], fun rest => by rw [key rest],
    fun rest => by rw [key rest], ?_⟩
  refine ⟨[Event.genEph, Event.readBytes 64, Event.verifyHello, Event.writeBytes 64,
    Event.flush, Event.deriveA, Event.deriveB, Event.readBytes 112, Event.openAuth,
    Event.deriveC], [Event.flush, Event.deriveOutcome], by simp [serverSuccessTrace], ?_⟩
  intro n
  simp

set_option maxRecDepth 16000 in
/-- Witness for C9 at the concrete test instantiation (with an arbitrary
continuation byte after the consumed frames). -/
theorem C9_server_success_before_client_verdict_witness :
    GoodRun toy tNet tCPk tCPk tSPk tSPk tCePk tCePk tSePk tSePk tA tB tCs ∧
    (server toy tNet tSPk tSPk tSePk tSePk
        (initState (ClientHello.new toy tCePk tNet ++
          (ClientAuth.new toy tCPk tCPk tSPk tNet tA tB ++ [9])) false)).1
      = Except.ok (serverOutcome toy tNet tCPk tSPk tCePk tSePk tA tB tCs) ∧
    (server toy tNet tSPk tSPk tSePk tSePk
        (initState (ClientHello.new toy tCePk tNet ++
          (ClientAuth.new toy tCPk tCPk tSPk tNet tA tB ++ [9])) false)).2.inp = [9] ∧
    (server toy tNet tSPk tSPk tSePk tSePk
        (initState (ClientHello.new toy tCePk tNet ++
          (ClientAuth.new toy tCPk tCPk tSPk tNet tA tB ++ [9])) false)).2.trace
      = serverSuccessTrace ∧
    (∃ t1 t2, serverSuccessTrace = t1 ++ Event.writeBytes 80 :: t2 ∧
      ∀ n, Event.readBytes n ∉ t2) := by
  obtain ⟨h1, h2, h3, h4⟩ := C9_server_success_before_client_verdict toy tNet tCPk tCPk tSPk
    tSPk tCePk tCePk tSePk tSePk tA tB tCs false toyGood
  exact ⟨toyGood, h1 [9], h2 [9], h3 [9], h4⟩
